import Mathlib

/-!
# DS2482 1-Wire bus master driver (`OneWire.cpp`)

A shallow embedding of the driver and proofs about it.

* The driver talks to the bridge chip through the Arduino `Wire` object.  The
  bridge is an arbitrary deterministic state machine (`Bridge σ`); every I2C
  transaction the driver performs is appended to a log, so that the traffic
  itself can be specified.
* `uint8_t` values are natural numbers below 256; a store into a `uint8_t`
  is `% 256`.  Expressions that C evaluates in promoted `int` arithmetic use a
  16-bit two's complement `int` (the AVR width); the truncated results do not
  depend on the width.
* `uint8_t searchAddress[8]` and the caller's `uint8_t *address` buffer are
  functions from the byte offset to the byte.
-/

namespace DS2482

/-! ## Constants of the missing header -/

/-- The constants of `OneWire.h` that the driver uses: bridge command
bytes, read-pointer codes, status-register bit masks and 1-Wire ROM commands.
The header is not among the sources, so their values are parameters of every
driver function. -/
structure Consts where
  DS2482_COMMAND_RESET : Nat
  DS2482_COMMAND_SRP : Nat
  DS2482_POINTER_STATUS : Nat
  DS2482_POINTER_DATA : Nat
  DS2482_POINTER_CONFIG : Nat
  DS2482_STATUS_BUSY : Nat
  DS2482_STATUS_PPD : Nat
  DS2482_STATUS_SBR : Nat
  DS2482_STATUS_TSB : Nat
  DS2482_STATUS_DIR : Nat
  DS2482_COMMAND_WRITECONFIG : Nat
  DS2482_COMMAND_RESETWIRE : Nat
  DS2482_COMMAND_WRITEBYTE : Nat
  DS2482_COMMAND_READBYTE : Nat
  DS2482_COMMAND_SINGLEBIT : Nat
  DS2482_COMMAND_TRIPLET : Nat
  WIRE_COMMAND_SKIP : Nat
  WIRE_COMMAND_SELECT : Nat
  WIRE_COMMAND_SEARCH : Nat

/-- The values the DS2482 data sheet assigns to the constants; used only for
the concrete runs. -/
def datasheet : Consts where
  DS2482_COMMAND_RESET := 0xF0
  DS2482_COMMAND_SRP := 0xE1
  DS2482_POINTER_STATUS := 0xF0
  DS2482_POINTER_DATA := 0xE1
  DS2482_POINTER_CONFIG := 0xC3
  DS2482_STATUS_BUSY := 0x01
  DS2482_STATUS_PPD := 0x02
  DS2482_STATUS_SBR := 0x20
  DS2482_STATUS_TSB := 0x40
  DS2482_STATUS_DIR := 0x80
  DS2482_COMMAND_WRITECONFIG := 0xD2
  DS2482_COMMAND_RESETWIRE := 0xB4
  DS2482_COMMAND_WRITEBYTE := 0xA5
  DS2482_COMMAND_READBYTE := 0x96
  DS2482_COMMAND_SINGLEBIT := 0x87
  DS2482_COMMAND_TRIPLET := 0x78
  WIRE_COMMAND_SKIP := 0xCC
  WIRE_COMMAND_SELECT := 0x55
  WIRE_COMMAND_SEARCH := 0xF0

/-! ## The transport and the controller object -/

/-- One entry of the traffic log: a completed write transaction, a one-byte
read, or a `delayMicroseconds` pause. -/
inductive Event where
  | tx (address : Nat) (bytes : List Nat)
  | rx (address : Nat) (byte : Nat)
  | delay (us : Nat)
  deriving DecidableEq

/-- The peripheral behind the `Wire` object: what a write transaction does to
it (and the `endTransmission` status it yields) and what a one-byte read
returns. -/
structure Bridge (σ : Type) where
  transmit : σ → Nat → List Nat → Nat × σ
  receive : σ → Nat → Nat × σ

/-- The `OneWire` object (`mAddress`, `mError`, the three search fields)
together with the global `Wire` object it drives: the peripheral state, the
pending transmit address and buffer, and the traffic log. -/
structure Sys (σ : Type) where
  mAddress : Nat
  mError : Nat
  searchAddress : Nat → Nat
  searchLastDiscrepancy : Nat
  searchLastDeviceFlag : Nat
  dev : σ
  txAddress : Nat
  txBuffer : List Nat
  log : List Event

variable {σ : Type}

/-- Bitwise complement of a promoted `int` operand (16-bit two's complement). -/
def intNot (x : Nat) : Nat := x ^^^ 0xFFFF

/-- Left shift of a promoted `int` operand (16-bit two's complement). -/
def intShl (x n : Nat) : Nat := (x <<< n) % 65536

/-- Source function `OneWire::getAddress`. -/
def getAddress (s : Sys σ) : Nat := s.mAddress

/-- Source function `OneWire::getError`. -/
def getError (s : Sys σ) : Nat := s.mError

/-- Source function `OneWire::begin`: `Wire.beginTransmission(mAddress)`. -/
def begin (s : Sys σ) : Sys σ :=
  { s with txAddress := s.mAddress, txBuffer := [] }

/-- Source function `OneWire::end`: `Wire.endTransmission()` sends the queued bytes. -/
def end_ (B : Bridge σ) (s : Sys σ) : Nat × Sys σ :=
  ((B.transmit s.dev s.txAddress s.txBuffer).1 % 256,
   { s with dev := (B.transmit s.dev s.txAddress s.txBuffer).2,
            txBuffer := [],
            log := s.log ++ [Event.tx s.txAddress s.txBuffer] })

/-- Source function `OneWire::writeByte`: `Wire.write(data)` queues one byte. -/
def writeByte (s : Sys σ) (data : Nat) : Sys σ :=
  { s with txBuffer := s.txBuffer ++ [data % 256] }

/-- Source function `OneWire::readByte`: `Wire.requestFrom(mAddress, 1)` then `Wire.read()`. -/
def readByte (B : Bridge σ) (s : Sys σ) : Nat × Sys σ :=
  ((B.receive s.dev s.mAddress).1 % 256,
   { s with dev := (B.receive s.dev s.mAddress).2,
            log := s.log ++ [Event.rx s.mAddress ((B.receive s.dev s.mAddress).1 % 256)] })

/-- The Arduino `delayMicroseconds`. -/
def delayMicroseconds (s : Sys σ) (us : Nat) : Sys σ :=
  { s with log := s.log ++ [Event.delay us] }

/-- Source function `OneWire::setReadPointer`. -/
def setReadPointer (K : Consts) (B : Bridge σ) (s : Sys σ) (readPointer : Nat) : Sys σ :=
  (end_ B (writeByte (writeByte (begin s) K.DS2482_COMMAND_SRP) readPointer)).2

/-- Source function `OneWire::readStatus`. -/
def readStatus (K : Consts) (B : Bridge σ) (s : Sys σ) : Nat × Sys σ :=
  readByte B (setReadPointer K B s K.DS2482_POINTER_STATUS)

/-- Source function `OneWire::readData`. -/
def readData (K : Consts) (B : Bridge σ) (s : Sys σ) : Nat × Sys σ :=
  readByte B (setReadPointer K B s K.DS2482_POINTER_DATA)

/-- The `for (int i = 1000; i > 0; i--)` loop of `waitOnBusy`; the first
argument is `i`, the second the current value of `status`. -/
def waitLoop (K : Consts) (B : Bridge σ) : Nat → Nat → Sys σ → Nat × Sys σ
  | 0, status, s => (status, s)
  | i + 1, _, s =>
    if (readStatus K B s).1 &&& K.DS2482_STATUS_BUSY = 0 then
      readStatus K B s
    else
      waitLoop K B i (readStatus K B s).1 (delayMicroseconds (readStatus K B s).2 20)

/-- Source function `OneWire::waitOnBusy`.  The local `status` is uninitialised in the source;
the loop body runs at least once and overwrites it, so the start value 0 is
never observed. -/
def waitOnBusy (K : Consts) (B : Bridge σ) (s : Sys σ) : Nat × Sys σ :=
  ((waitLoop K B 1000 0 s).1,
   if (waitLoop K B 1000 0 s).1 &&& K.DS2482_STATUS_BUSY ≠ 0 then
     { (waitLoop K B 1000 0 s).2 with mError := 1 }
   else (waitLoop K B 1000 0 s).2)

/-- Source function `OneWire::readConfig`. -/
def readConfig (K : Consts) (B : Bridge σ) (s : Sys σ) : Nat × Sys σ :=
  readByte B (setReadPointer K B s K.DS2482_POINTER_CONFIG)

/-- The argument `config | (~config)<<4` of the second `writeByte` in
`writeConfig`, before its truncation to `uint8_t`. -/
def configByte (config : Nat) : Nat := config ||| intShl (intNot config) 4

/-- The first part of `writeConfig` (`OneWire.cpp` lines 107-111): the busy
wait and the write transaction. -/
def writeConfigSend (K : Consts) (B : Bridge σ) (s : Sys σ) (config : Nat) : Sys σ :=
  let s1 := (waitOnBusy K B s).2
  (end_ B (writeByte (writeByte (begin s1) K.DS2482_COMMAND_WRITECONFIG)
    (configByte config))).2

/-- Source function `OneWire::writeConfig`. -/
def writeConfig (K : Consts) (B : Bridge σ) (s : Sys σ) (config : Nat) : Sys σ :=
  let s2 := writeConfigSend K B s config
  if (readByte B s2).1 ≠ config then { (readByte B s2).2 with mError := 1 }
  else (readByte B s2).2

/-- Source function `OneWire::wireReset`. -/
def wireReset (K : Consts) (B : Bridge σ) (s : Sys σ) : Nat × Sys σ :=
  let s1 := (waitOnBusy K B s).2
  let s2 := (end_ B (writeByte (begin s1) K.DS2482_COMMAND_RESETWIRE)).2
  (if (waitOnBusy K B s2).1 &&& K.DS2482_STATUS_PPD ≠ 0 then 1 else 0, (waitOnBusy K B s2).2)

/-- Source function `OneWire::wireWriteByte`. -/
def wireWriteByte (K : Consts) (B : Bridge σ) (s : Sys σ) (data : Nat) : Sys σ :=
  let s1 := (waitOnBusy K B s).2
  (end_ B (writeByte (writeByte (begin s1) K.DS2482_COMMAND_WRITEBYTE) data)).2

/-- Source function `OneWire::wireReadByte`. -/
def wireReadByte (K : Consts) (B : Bridge σ) (s : Sys σ) : Nat × Sys σ :=
  let s1 := (waitOnBusy K B s).2
  let s2 := (end_ B (writeByte (begin s1) K.DS2482_COMMAND_READBYTE)).2
  readData K B (waitOnBusy K B s2).2

/-- Source function `OneWire::wireWriteBit`. -/
def wireWriteBit (K : Consts) (B : Bridge σ) (s : Sys σ) (data : Nat) : Sys σ :=
  let s1 := (waitOnBusy K B s).2
  (end_ B (writeByte (writeByte (begin s1) K.DS2482_COMMAND_SINGLEBIT)
    (if data ≠ 0 then 0x80 else 0x00))).2

/-- Source function `OneWire::wireReadBit`. -/
def wireReadBit (K : Consts) (B : Bridge σ) (s : Sys σ) : Nat × Sys σ :=
  let r := waitOnBusy K B (wireWriteBit K B s 1)
  (if r.1 &&& K.DS2482_STATUS_SBR ≠ 0 then 1 else 0, r.2)

/-- Source function `OneWire::wireSkip`. -/
def wireSkip (K : Consts) (B : Bridge σ) (s : Sys σ) : Sys σ :=
  wireWriteByte K B s K.WIRE_COMMAND_SKIP

/-- The `for (int i=0;i<8;i++) wireWriteByte(rom[i])` loop of `wireSelect`: `n`
iterations starting at index `i`. -/
def selectLoop (K : Consts) (B : Bridge σ) (rom : Nat → Nat) : Nat → Nat → Sys σ → Sys σ
  | 0, _, s => s
  | n + 1, i, s => selectLoop K B rom n (i + 1) (wireWriteByte K B s (rom i))

/-- Source function `OneWire::wireSelect`. -/
def wireSelect (K : Consts) (B : Bridge σ) (s : Sys σ) (rom : Nat → Nat) : Sys σ :=
  selectLoop K B rom 8 0 (wireWriteByte K B s K.WIRE_COMMAND_SELECT)

/-- The `for (int i = 0; i < 8; i++) searchAddress[i] = 0` loop of
`wireResetSearch`: `n` iterations starting at index `i`. -/
def zeroLoop : Nat → Nat → (Nat → Nat) → (Nat → Nat)
  | 0, _, a => a
  | n + 1, i, a => zeroLoop n (i + 1) (Function.update a i 0)

/-- Source function `OneWire::wireResetSearch`. -/
def wireResetSearch (s : Sys σ) : Sys σ :=
  { s with searchLastDiscrepancy := 0,
           searchLastDeviceFlag := 0,
           searchAddress := zeroLoop 8 0 s.searchAddress }

/-- State carried round the 64-iteration loop of `wireSearch`: whether the
`return 0` inside the loop was taken, the local `last_zero`, and the object. -/
structure LoopOut (σ : Type) where
  aborted : Bool
  last_zero : Nat
  sys : Sys σ

/-- The requested `direction` computed at the top of iteration `i`
(`OneWire.cpp` lines 205-211). -/
def searchDirection (s : Sys σ) (i : Nat) : Nat :=
  if i < s.searchLastDiscrepancy then
    (s.searchAddress (i / 8) &&& (1 <<< (i % 8))) % 256
  else if i = s.searchLastDiscrepancy then 1 else 0

/-- The triplet command of iteration `i` and the status read after it
(`OneWire.cpp` lines 213-219). -/
def searchTriplet (K : Consts) (B : Bridge σ) (i : Nat) (s : Sys σ) : Nat × Sys σ :=
  let s1 := (waitOnBusy K B s).2
  let s2 := (end_ B (writeByte (writeByte (begin s1) K.DS2482_COMMAND_TRIPLET)
    (if searchDirection s i ≠ 0 then 0x80 else 0x00))).2
  waitOnBusy K B s2

/-- One iteration of the `for (uint8_t i = 0; i < 64; i++)` loop of
`wireSearch`. -/
def searchBody (K : Consts) (B : Bridge σ) (i last_zero : Nat) (s : Sys σ) : LoopOut σ :=
  let status := (searchTriplet K B i s).1
  let s3 := (searchTriplet K B i s).2
  let id := status &&& K.DS2482_STATUS_SBR
  let comp_id := status &&& K.DS2482_STATUS_TSB
  let direction := status &&& K.DS2482_STATUS_DIR
  if id ≠ 0 ∧ comp_id ≠ 0 then
    { aborted := true, last_zero := last_zero, sys := s3 }
  else
    { aborted := false,
      last_zero := if id = 0 ∧ comp_id = 0 ∧ direction = 0 then i else last_zero,
      sys :=
        if direction ≠ 0 then
          { s3 with searchAddress := (Function.update s3.searchAddress (i / 8)
              ((s3.searchAddress (i / 8) ||| (1 <<< (i % 8))) % 256)) }
        else
          { s3 with searchAddress := (Function.update s3.searchAddress (i / 8)
              ((s3.searchAddress (i / 8) &&& intNot (1 <<< (i % 8))) % 256)) } }

/-- The loop of `wireSearch`: `n` further iterations starting at bit `i`
(the source runs `searchLoop 64 0` with `last_zero = 0`). -/
def searchLoop (K : Consts) (B : Bridge σ) : Nat → Nat → Nat → Sys σ → LoopOut σ
  | 0, _, last_zero, s => { aborted := false, last_zero := last_zero, sys := s }
  | n + 1, i, last_zero, s =>
    if (searchBody K B i last_zero s).aborted then searchBody K B i last_zero s
    else searchLoop K B n (i + 1) (searchBody K B i last_zero s).last_zero
      (searchBody K B i last_zero s).sys

/-- Result of `wireSearch`: the return value, the object afterwards, and the
contents of the caller's buffer afterwards. -/
structure SearchOut (σ : Type) where
  ret : Nat
  sys : Sys σ
  address : Nat → Nat

/-- The object at the point where the search loop starts: after `wireReset`,
the extra `waitOnBusy` and the Search ROM command byte. -/
def searchStart (K : Consts) (B : Bridge σ) (s : Sys σ) : Sys σ :=
  wireWriteByte K B (waitOnBusy K B (wireReset K B s).2).2 K.WIRE_COMMAND_SEARCH

/-- Source function `OneWire::wireSearch`. -/
def wireSearch (K : Consts) (B : Bridge σ) (s : Sys σ) (address : Nat → Nat) : SearchOut σ :=
  if s.searchLastDeviceFlag ≠ 0 then
    { ret := 0, sys := s, address := address }
  else if (wireReset K B s).1 = 0 then
    { ret := 0, sys := (wireReset K B s).2, address := address }
  else
    let l := searchLoop K B 64 0 0 (searchStart K B s)
    if l.aborted then
      { ret := 0, sys := l.sys, address := address }
    else
      { ret := 1,
        sys :=
          if l.last_zero = 0 then
            { l.sys with searchLastDiscrepancy := l.last_zero, searchLastDeviceFlag := 1 }
          else
            { l.sys with searchLastDiscrepancy := l.last_zero },
        address := fun i => if i < 8 then l.sys.searchAddress i else address i }

/-- Source function `OneWire::reset_search`. -/
def reset_search (s : Sys σ) : Sys σ := wireResetSearch s

/-- Source function `OneWire::search`. -/
def search (K : Consts) (B : Bridge σ) (s : Sys σ) (newAddr : Nat → Nat) : SearchOut σ :=
  wireSearch K B s newAddr

/-- Source function `OneWire::reset`. -/
def reset (K : Consts) (B : Bridge σ) (s : Sys σ) : Nat × Sys σ := wireReset K B s

/-- Source function `OneWire::select`. -/
def select (K : Consts) (B : Bridge σ) (s : Sys σ) (rom : Nat → Nat) : Sys σ :=
  wireSelect K B s rom

/-- Source function `OneWire::skip`. -/
def skip (K : Consts) (B : Bridge σ) (s : Sys σ) : Sys σ := wireSkip K B s

/-- Source function `OneWire::write`; the `power` argument is unused by the source. -/
def write (K : Consts) (B : Bridge σ) (s : Sys σ) (v : Nat) (_power : Nat) : Sys σ :=
  wireWriteByte K B s v

/-- Source function `OneWire::read`. -/
def read (K : Consts) (B : Bridge σ) (s : Sys σ) : Nat × Sys σ := wireReadByte K B s

/-- Source function `OneWire::read_bit`. -/
def read_bit (K : Consts) (B : Bridge σ) (s : Sys σ) : Nat × Sys σ := wireReadBit K B s

/-- Source function `OneWire::write_bit`. -/
def write_bit (K : Consts) (B : Bridge σ) (s : Sys σ) (v : Nat) : Sys σ := wireWriteBit K B s v

/-! ## The checksum -/

/-- One pass of the inner `for (uint8_t i = 8; i; i--)` loop body of `crc8`:
the new `crc` and the shifted `inbyte`. -/
def crcStep (crc inbyte : Nat) : Nat × Nat :=
  let mix := (crc ^^^ inbyte) &&& 0x01
  let crc1 := crc >>> 1
  (if mix ≠ 0 then (crc1 ^^^ 0x8C) % 256 else crc1, inbyte >>> 1)

/-- The inner loop of `crc8`: `i` remaining passes. -/
def crcBits : Nat → Nat → Nat → Nat
  | 0, crc, _ => crc
  | i + 1, crc, inbyte => crcBits i (crcStep crc inbyte).1 (crcStep crc inbyte).2

/-- The `while (len--)` loop of `crc8`; `addr` is the pointer (offset to byte),
`p` the number of bytes already consumed. -/
def crc8Loop (addr : Nat → Nat) : Nat → Nat → Nat → Nat
  | 0, _, crc => crc
  | len + 1, p, crc => crc8Loop addr len (p + 1) (crcBits 8 crc (addr p % 256))

/-- Source function `OneWire::crc8`. -/
def crc8 (addr : Nat → Nat) (len : Nat) : Nat := crc8Loop addr len 0 0

/-! ## Running an enumeration -/

/-- The results of `n` consecutive `search()` calls; each call receives the
buffer as the previous call left it. -/
def searchCalls (K : Consts) (B : Bridge σ) : Nat → Sys σ → (Nat → Nat) → List (SearchOut σ)
  | 0, _, _ => []
  | n + 1, s, buf =>
    search K B s buf :: searchCalls K B n (search K B s buf).sys (search K B s buf).address

/-- The buffers delivered by the successful calls of a run, in call order. -/
def foundAddresses (rs : List (SearchOut σ)) : List (Nat → Nat) :=
  (rs.filter (fun r => r.ret != 0)).map (fun r => r.address)

/-- Bit `i` of an 8-byte address: bit `i % 8` of byte `i / 8`. -/
def addrBit (a : Nat → Nat) (i : Nat) : Bool := (a (i / 8)).testBit (i % 8)

/-- An 8-byte address read as a 64-bit unsigned value, bit 0 being the least
significant bit of byte 0 and bit 63 the most significant bit of byte 7. -/
def addrValue (a : Nat → Nat) : Nat :=
  a 0 + 256 * (a 1 + 256 * (a 2 + 256 * (a 3 + 256 * (a 4 + 256 * (a 5 + 256 * (a 6 + 256 * a 7))))))

/-- Value of a bit string whose first element is the most significant bit. -/
def bitsValue (bs : List Bool) : Nat := bs.foldl (fun acc b => 2 * acc + b.toNat) 0

/-- An 8-byte address read as a 64-bit unsigned value in search order: bit 0
(the first bit on the wire) is the most significant, bit 63 the least. -/
def searchOrderValue (a : Nat → Nat) : Nat := bitsValue ((List.range 64).map (addrBit a))

/-! ## Test bridges -/

/-- A bridge that replays a fixed sequence of bytes, one per read, whatever is
written to it (0xFF once the script is exhausted). -/
def scripted : Bridge (List Nat) where
  transmit d _ _ := (0, d)
  receive d _ := (d.headD 0xFF, d.tail)

/-- Modelled from the spec: the state of the simulated bridge with its 1-Wire
bus that the testable properties run the driver against (no simulator is among
the sources).  `roms` are the 64-bit addresses of the devices on the bus,
`active` those still taking part in the current search, `pos` the bit position
of the next triplet, `busy` the number of status polls for which the bridge
still reports busy, `latency` the value `busy` takes after a 1-Wire command. -/
structure Sim where
  roms : List Nat
  latency : Nat
  active : List Nat
  pos : Nat
  busy : Nat
  pointer : Nat
  ppd : Bool
  sbr : Bool
  tsb : Bool
  dir : Bool
  config : Nat
  deriving DecidableEq

/-- The status register of the simulated bridge. -/
def simStatus (K : Consts) (d : Sim) : Nat :=
  (if d.busy ≠ 0 then K.DS2482_STATUS_BUSY else 0) |||
  (if d.ppd then K.DS2482_STATUS_PPD else 0) |||
  (if d.sbr then K.DS2482_STATUS_SBR else 0) |||
  (if d.tsb then K.DS2482_STATUS_TSB else 0) |||
  (if d.dir then K.DS2482_STATUS_DIR else 0)

/-- The 1-Wire reset on the simulated bus: every device participates again;
the presence pulse is seen exactly when there is a device. -/
def simReset (K : Consts) (d : Sim) : Sim :=
  { d with active := d.roms, pos := 0, ppd := !d.roms.isEmpty,
           busy := d.latency, pointer := K.DS2482_POINTER_STATUS }

/-- The bit reported by a triplet: the AND of the participating devices' bits at
the current position. -/
def simId (d : Sim) : Bool := d.active.all (fun r => r.testBit d.pos)

/-- The complement bit reported by a triplet: the AND of the complements of the
participating devices' bits at the current position. -/
def simComp (d : Sim) : Bool := d.active.all (fun r => !r.testBit d.pos)

/-- The direction a triplet drives: the requested one only when bit and
complement bit are both 0, the unanimous bit otherwise. -/
def simDrive (d : Sim) (requested : Bool) : Bool :=
  if !simId d && !simComp d then requested else simId d

/-- The triplet on the simulated bus at the current bit position: it reports
bit, complement bit and driven direction, and the devices whose bit differs from
the driven direction drop out. -/
def simTriplet (K : Consts) (d : Sim) (requested : Bool) : Sim :=
  { d with active := d.active.filter (fun r => r.testBit d.pos == simDrive d requested),
           pos := d.pos + 1, sbr := simId d, tsb := simComp d, dir := simDrive d requested,
           busy := d.latency, pointer := K.DS2482_POINTER_STATUS }

/-- The config write on the simulated bridge: a byte whose high nibble is the
complement of its low nibble stores the low nibble; the read pointer moves to
the config register. -/
def simWriteConfig (K : Consts) (d : Sim) (b : Nat) : Sim :=
  if b / 16 = 15 - b % 16 then
    { d with config := b % 16, pointer := K.DS2482_POINTER_CONFIG }
  else
    { d with pointer := K.DS2482_POINTER_CONFIG }

/-- A 1-Wire byte write on the simulated bridge: it is busy for the latency;
the devices go on to answer triplets only if the byte is the Search ROM
command. -/
def simWriteByte (K : Consts) (d : Sim) (b : Nat) : Sim :=
  { d with active := if b = K.WIRE_COMMAND_SEARCH then d.active else [],
           busy := d.latency, pointer := K.DS2482_POINTER_STATUS }

/-- Write transactions of the simulated bridge. -/
def simTransmit (K : Consts) (d : Sim) (_address : Nat) (bytes : List Nat) : Nat × Sim :=
  match bytes with
  | [c] => if c = K.DS2482_COMMAND_RESETWIRE then (0, simReset K d) else (0, d)
  | [c, a] =>
    if c = K.DS2482_COMMAND_SRP then (0, { d with pointer := a })
    else if c = K.DS2482_COMMAND_TRIPLET then (0, simTriplet K d (a.testBit 7))
    else if c = K.DS2482_COMMAND_WRITEBYTE then (0, simWriteByte K d a)
    else if c = K.DS2482_COMMAND_WRITECONFIG then (0, simWriteConfig K d a)
    else (0, d)
  | _ => (0, d)

/-- One-byte reads of the simulated bridge: the register the read pointer
selects; a status read while busy uses up one poll of the latency. -/
def simReceive (K : Consts) (d : Sim) (_address : Nat) : Nat × Sim :=
  if d.pointer = K.DS2482_POINTER_STATUS then (simStatus K d, { d with busy := d.busy - 1 })
  else if d.pointer = K.DS2482_POINTER_CONFIG then (d.config, d)
  else (0xFF, d)

/-- Modelled from the spec: the simulated bridge, an ideal DS2482 with the
devices `roms` on its 1-Wire bus; every 1-Wire command keeps it busy for
`latency` status polls. -/
def simBridge (K : Consts) : Bridge Sim where
  transmit := simTransmit K
  receive := simReceive K

/-- The simulated bridge at power-up with the given devices on the bus. -/
def simInit (K : Consts) (roms : List Nat) (latency : Nat) : Sim :=
  { roms := roms, latency := latency, active := [], pos := 0, busy := 0,
    pointer := K.DS2482_POINTER_STATUS, ppd := false, sbr := false, tsb := false,
    dir := false, config := 0 }

/-- A controller object at I2C address `0x18` attached to a peripheral in state
`d`, before any traffic. -/
def attach (d : σ) : Sys σ :=
  { mAddress := 0x18, mError := 0, searchAddress := fun _ => 0,
    searchLastDiscrepancy := 0, searchLastDeviceFlag := 0, dev := d,
    txAddress := 0, txBuffer := [], log := [] }

/-- What the simulated bridge needs of the constants: the five status masks are
non-zero, fit a byte and share no bit; the command bytes it decodes fit a byte
and those of equal length are pairwise distinct; the status and config pointer
codes fit a byte and differ. -/
def Consts.WF (K : Consts) : Prop :=
  (K.DS2482_STATUS_BUSY ≠ 0 ∧ K.DS2482_STATUS_PPD ≠ 0 ∧ K.DS2482_STATUS_SBR ≠ 0 ∧
    K.DS2482_STATUS_TSB ≠ 0 ∧ K.DS2482_STATUS_DIR ≠ 0) ∧
  (K.DS2482_STATUS_BUSY < 256 ∧ K.DS2482_STATUS_PPD < 256 ∧ K.DS2482_STATUS_SBR < 256 ∧
    K.DS2482_STATUS_TSB < 256 ∧ K.DS2482_STATUS_DIR < 256) ∧
  (K.DS2482_STATUS_BUSY &&& K.DS2482_STATUS_PPD = 0 ∧
    K.DS2482_STATUS_BUSY &&& K.DS2482_STATUS_SBR = 0 ∧
    K.DS2482_STATUS_BUSY &&& K.DS2482_STATUS_TSB = 0 ∧
    K.DS2482_STATUS_BUSY &&& K.DS2482_STATUS_DIR = 0 ∧
    K.DS2482_STATUS_PPD &&& K.DS2482_STATUS_SBR = 0 ∧
    K.DS2482_STATUS_PPD &&& K.DS2482_STATUS_TSB = 0 ∧
    K.DS2482_STATUS_PPD &&& K.DS2482_STATUS_DIR = 0 ∧
    K.DS2482_STATUS_SBR &&& K.DS2482_STATUS_TSB = 0 ∧
    K.DS2482_STATUS_SBR &&& K.DS2482_STATUS_DIR = 0 ∧
    K.DS2482_STATUS_TSB &&& K.DS2482_STATUS_DIR = 0) ∧
  (K.DS2482_COMMAND_SRP < 256 ∧ K.DS2482_COMMAND_TRIPLET < 256 ∧
    K.DS2482_COMMAND_WRITEBYTE < 256 ∧ K.DS2482_COMMAND_WRITECONFIG < 256 ∧
    K.DS2482_COMMAND_RESETWIRE < 256 ∧ K.WIRE_COMMAND_SEARCH < 256) ∧
  (K.DS2482_COMMAND_TRIPLET ≠ K.DS2482_COMMAND_SRP ∧
    K.DS2482_COMMAND_WRITEBYTE ≠ K.DS2482_COMMAND_SRP ∧
    K.DS2482_COMMAND_WRITEBYTE ≠ K.DS2482_COMMAND_TRIPLET ∧
    K.DS2482_COMMAND_WRITECONFIG ≠ K.DS2482_COMMAND_SRP ∧
    K.DS2482_COMMAND_WRITECONFIG ≠ K.DS2482_COMMAND_TRIPLET ∧
    K.DS2482_COMMAND_WRITECONFIG ≠ K.DS2482_COMMAND_WRITEBYTE) ∧
  (K.DS2482_POINTER_STATUS < 256 ∧ K.DS2482_POINTER_CONFIG < 256 ∧
    K.DS2482_POINTER_CONFIG ≠ K.DS2482_POINTER_STATUS)

instance (K : Consts) : Decidable K.WF := by
  unfold Consts.WF
  infer_instance

/-! ## Specification vocabulary -/

/-- Number of one-byte reads recorded in a traffic log. -/
def rxCount (log : List Event) : Nat :=
  log.countP (fun e => match e with | Event.rx _ _ => true | _ => false)

/-- A status read as the bridge sees it, written from the specification and not
through the driver: a write transaction carrying the Set Read Pointer command
with the Status register code, followed by a one-byte read.  The result is the
byte returned and the bridge state afterwards. -/
def statusRead (K : Consts) (B : Bridge σ) (address : Nat) (d : σ) : Nat × σ :=
  ((B.receive (B.transmit d address
      [K.DS2482_COMMAND_SRP % 256, K.DS2482_POINTER_STATUS % 256]).2 address).1 % 256,
   (B.receive (B.transmit d address
      [K.DS2482_COMMAND_SRP % 256, K.DS2482_POINTER_STATUS % 256]).2 address).2)

/-- The sequence of status bytes of the bridge: `statusSeq K B address j d` is
the byte returned by status read number `j + 1` when the bridge, starting in
state `d`, is asked for its status again and again. -/
def statusSeq (K : Consts) (B : Bridge σ) (address : Nat) : Nat → σ → Nat
  | 0, d => (statusRead K B address d).1
  | j + 1, d => statusSeq K B address j (statusRead K B address d).2

/-- The bridge state after `n` status reads. -/
def statusDev (K : Consts) (B : Bridge σ) (address : Nat) : Nat → σ → σ
  | 0, d => d
  | n + 1, d => statusDev K B address n (statusRead K B address d).2

/-- The traffic of one poll that returned `status`: the Set Read Pointer
transaction for the Status register, the one-byte read, and the 20 microsecond
pause if the busy bit was set. -/
def pollEvents (K : Consts) (address status : Nat) : List Event :=
  [Event.tx address [K.DS2482_COMMAND_SRP % 256, K.DS2482_POINTER_STATUS % 256],
   Event.rx address status] ++
  (if status &&& K.DS2482_STATUS_BUSY ≠ 0 then [Event.delay 20] else [])

/-- The traffic of `n` consecutive polls of a bridge that starts in state `d`. -/
def pollLog (K : Consts) (B : Bridge σ) (address : Nat) : Nat → σ → List Event
  | 0, _ => []
  | n + 1, d =>
    pollEvents K address (statusRead K B address d).1 ++
      pollLog K B address n (statusRead K B address d).2

/-- What every operation other than the search bookkeeping leaves alone: the
I2C address and the three search fields are unchanged and the error indicator
is either unchanged or set to 1. -/
structure Keeps (s t : Sys σ) : Prop where
  mAddress : t.mAddress = s.mAddress
  searchAddress : t.searchAddress = s.searchAddress
  disc : t.searchLastDiscrepancy = s.searchLastDiscrepancy
  flag : t.searchLastDeviceFlag = s.searchLastDeviceFlag
  err : t.mError = s.mError ∨ t.mError = 1

/-! ## Definitions used by the proofs -/

/-- A bridge that answers every read with the same byte and ignores writes. -/
def constBridge (b : Nat) : Bridge Unit where
  transmit d _ _ := (0, d)
  receive d _ := (b, d)

/-- What the search loop leaves alone: as `Keeps`, without the working address. -/
structure KeepsCtl (s t : Sys σ) : Prop where
  mAddress : t.mAddress = s.mAddress
  disc : t.searchLastDiscrepancy = s.searchLastDiscrepancy
  flag : t.searchLastDeviceFlag = s.searchLastDeviceFlag
  err : t.mError = s.mError ∨ t.mError = 1

/-- A buffer holding the bytes `l` from offset 0 on. -/
def ptr (l : List Nat) : Nat → Nat := fun i => l.getD i 0

/-- One bit of the reference bit-serial CRC: `mix = (register XOR bit) AND 1`,
shift the register right by one, XOR it with `0x8C` exactly when `mix` is 1. -/
def refCrcBit (register : Nat) (bit : Bool) : Nat :=
  let mix := (register ^^^ bit.toNat) &&& 1
  if mix = 1 then (register >>> 1) ^^^ 0x8C else register >>> 1

/-- The reference bit-serial CRC of the claim: register 0 at the start, every
byte in order, the 8 bits of a byte least significant first. -/
def refCrc8 (bytes : List Nat) : Nat :=
  bytes.foldl (fun reg b => (List.range 8).foldl (fun r k => refCrcBit r (b.testBit k)) reg) 0

/-- The simulated bridge once a busy wait has completed: no longer busy, read
pointer at the status register. -/
def simIdle (K : Consts) (d : Sim) : Sim :=
  { d with busy := 0, pointer := K.DS2482_POINTER_STATUS }

/-- The simulated bridge after one status read: the read pointer is at the
status register and one poll of the latency is used up. -/
def simPolled (K : Consts) (d : Sim) : Sim :=
  { d with pointer := K.DS2482_POINTER_STATUS, busy := d.busy - 1 }

/-- Device `r` has the same bits as the address `a` at all positions below `n`. -/
def agrees (a : Nat → Nat) (n : Nat) (r : Nat) : Bool :=
  decide (∀ j, j < n → r.testBit j = addrBit a j)

/-- What a successful search call establishes about the working address `a` and
the new `searchLastDiscrepancy` value `L`: some device carries the address, and
if `L` is not 0 then bit `L` of the address is 0 and a device that agrees with
the address below `L` has bit `L` set. -/
def Post (D : List Nat) (a : Nat → Nat) (L : Nat) : Prop :=
  (∃ r, r ∈ D ∧ agrees a 64 r = true) ∧
  (L ≠ 0 → L < 64 ∧ addrBit a L = false ∧
    ∃ r, r ∈ D ∧ agrees a L r = true ∧ r.testBit L = true)

/-- Invariant of the search loop on the simulated bridge at the start of
iteration `i`, for a call entered with working address `a0` and discrepancy
marker `L`, the devices on the bus being `D`. -/
structure LoopInv (D : List Nat) (a0 : Nat → Nat) (L i lz : Nat) (t : Sys Sim) : Prop where
  roms : t.dev.roms = D
  lat : t.dev.latency < 1000
  busy : t.dev.busy < 1000
  pos : t.dev.pos = i
  active : t.dev.active = D.filter (agrees t.searchAddress i)
  nonempty : ∃ r, r ∈ D ∧ agrees t.searchAddress i r = true
  disc : t.searchLastDiscrepancy = L
  rest : ∀ j, i ≤ j → addrBit t.searchAddress j = addrBit a0 j
  lz : lz ≠ 0 → lz < i ∧ addrBit t.searchAddress lz = false ∧
    ∃ r, r ∈ D ∧ agrees t.searchAddress lz r = true ∧ r.testBit lz = true
  replay : L ≠ 0 → Post D a0 L →
    (∀ j, j < i → j < L → addrBit t.searchAddress j = addrBit a0 j) ∧
    (L < i → addrBit t.searchAddress L = true)

/-- Strict order of two addresses as bit strings read from bit 0 upwards: they
agree below some position `p < 64`, where the first has 0 and the second 1. -/
def LexLt (a b : Nat → Nat) : Prop :=
  ∃ p, p < 64 ∧ (∀ j, j < p → addrBit a j = addrBit b j) ∧
    addrBit a p = false ∧ addrBit b p = true

/-- State of controller and simulated bridge between two search calls. -/
def Ready (D : List Nat) (t : Sys Sim) : Prop :=
  t.dev.roms = D ∧ t.dev.latency < 1000 ∧ t.dev.busy < 1000 ∧
  (t.searchLastDeviceFlag = 0 → t.searchLastDiscrepancy ≠ 0 →
    Post D t.searchAddress t.searchLastDiscrepancy)

set_option maxRecDepth 1000000

/-! ## Frame lemmas -/

theorem Keeps.refl (s : Sys σ) : Keeps s s :=
  ⟨rfl, rfl, rfl, rfl, Or.inl rfl⟩

theorem Keeps.andThen {s t u : Sys σ} (h1 : Keeps s t) (h2 : Keeps t u) : Keeps s u := by
  refine ⟨h2.mAddress.trans h1.mAddress, h2.searchAddress.trans h1.searchAddress,
    h2.disc.trans h1.disc, h2.flag.trans h1.flag, ?_⟩
  rcases h2.err with h | h
  · rcases h1.err with g | g
    · exact Or.inl (h.trans g)
    · exact Or.inr (h.trans g)
  · exact Or.inr h

theorem Keeps.stickyErr {s t : Sys σ} (h : Keeps s t) (he : s.mError ≠ 0) : t.mError ≠ 0 := by
  rcases h.err with g | g
  · rw [g]; exact he
  · rw [g]; exact one_ne_zero

theorem keeps_begin (s : Sys σ) : Keeps s (begin s) :=
  ⟨rfl, rfl, rfl, rfl, Or.inl rfl⟩

theorem keeps_writeByte (s : Sys σ) (b : Nat) : Keeps s (writeByte s b) :=
  ⟨rfl, rfl, rfl, rfl, Or.inl rfl⟩

theorem keeps_end (B : Bridge σ) (s : Sys σ) : Keeps s (end_ B s).2 :=
  ⟨rfl, rfl, rfl, rfl, Or.inl rfl⟩

theorem keeps_readByte (B : Bridge σ) (s : Sys σ) : Keeps s (readByte B s).2 :=
  ⟨rfl, rfl, rfl, rfl, Or.inl rfl⟩

theorem keeps_delay (s : Sys σ) (us : Nat) : Keeps s (delayMicroseconds s us) :=
  ⟨rfl, rfl, rfl, rfl, Or.inl rfl⟩

theorem keeps_setError (s : Sys σ) : Keeps s { s with mError := 1 } :=
  ⟨rfl, rfl, rfl, rfl, Or.inr rfl⟩

theorem keeps_setReadPointer (K : Consts) (B : Bridge σ) (s : Sys σ) (p : Nat) :
    Keeps s (setReadPointer K B s p) :=
  ⟨rfl, rfl, rfl, rfl, Or.inl rfl⟩

theorem keeps_readStatus (K : Consts) (B : Bridge σ) (s : Sys σ) :
    Keeps s (readStatus K B s).2 :=
  ⟨rfl, rfl, rfl, rfl, Or.inl rfl⟩

theorem keeps_readData (K : Consts) (B : Bridge σ) (s : Sys σ) :
    Keeps s (readData K B s).2 :=
  ⟨rfl, rfl, rfl, rfl, Or.inl rfl⟩

theorem keeps_waitLoop (K : Consts) (B : Bridge σ) (n st : Nat) (s : Sys σ) :
    Keeps s (waitLoop K B n st s).2 := by
  induction n generalizing st s with
  | zero => exact Keeps.refl s
  | succ n ih =>
    rw [waitLoop]
    split
    · exact keeps_readStatus K B s
    · exact (keeps_readStatus K B s).andThen ((keeps_delay _ 20).andThen (ih _ _))

theorem keeps_waitOnBusy (K : Consts) (B : Bridge σ) (s : Sys σ) :
    Keeps s (waitOnBusy K B s).2 := by
  unfold waitOnBusy
  dsimp only
  split
  · exact (keeps_waitLoop K B 1000 0 s).andThen (keeps_setError _)
  · exact keeps_waitLoop K B 1000 0 s

/-- A write transaction preceded by a busy wait keeps the frame. -/
theorem keeps_send1 (K : Consts) (B : Bridge σ) (s : Sys σ) (a : Nat) :
    Keeps s (end_ B (writeByte (begin (waitOnBusy K B s).2) a)).2 :=
  (keeps_waitOnBusy K B s).andThen ((keeps_begin _).andThen ((keeps_writeByte _ _).andThen
    (keeps_end B _)))

theorem keeps_send2 (K : Consts) (B : Bridge σ) (s : Sys σ) (a b : Nat) :
    Keeps s (end_ B (writeByte (writeByte (begin (waitOnBusy K B s).2) a) b)).2 :=
  (keeps_waitOnBusy K B s).andThen ((keeps_begin _).andThen ((keeps_writeByte _ _).andThen
    ((keeps_writeByte _ _).andThen (keeps_end B _))))

theorem keeps_writeConfigSend (K : Consts) (B : Bridge σ) (s : Sys σ) (c : Nat) :
    Keeps s (writeConfigSend K B s c) :=
  keeps_send2 K B s _ _

theorem keeps_writeConfig (K : Consts) (B : Bridge σ) (s : Sys σ) (c : Nat) :
    Keeps s (writeConfig K B s c) := by
  unfold writeConfig
  dsimp only
  split
  · exact (keeps_writeConfigSend K B s c).andThen ((keeps_readByte B _).andThen (keeps_setError _))
  · exact (keeps_writeConfigSend K B s c).andThen (keeps_readByte B _)

theorem keeps_wireReset (K : Consts) (B : Bridge σ) (s : Sys σ) :
    Keeps s (wireReset K B s).2 :=
  (keeps_send1 K B s _).andThen (keeps_waitOnBusy K B _)

theorem keeps_wireWriteByte (K : Consts) (B : Bridge σ) (s : Sys σ) (b : Nat) :
    Keeps s (wireWriteByte K B s b) :=
  keeps_send2 K B s _ _

theorem keeps_wireReadByte (K : Consts) (B : Bridge σ) (s : Sys σ) :
    Keeps s (wireReadByte K B s).2 :=
  (keeps_send1 K B s _).andThen ((keeps_waitOnBusy K B _).andThen (keeps_readData K B _))

theorem keeps_wireWriteBit (K : Consts) (B : Bridge σ) (s : Sys σ) (b : Nat) :
    Keeps s (wireWriteBit K B s b) :=
  keeps_send2 K B s _ _

theorem keeps_wireReadBit (K : Consts) (B : Bridge σ) (s : Sys σ) :
    Keeps s (wireReadBit K B s).2 :=
  (keeps_wireWriteBit K B s 1).andThen (keeps_waitOnBusy K B _)

theorem keeps_selectLoop (K : Consts) (B : Bridge σ) (rom : Nat → Nat) (n i : Nat) (s : Sys σ) :
    Keeps s (selectLoop K B rom n i s) := by
  induction n generalizing i s with
  | zero => exact Keeps.refl s
  | succ n ih => exact (keeps_wireWriteByte K B s (rom i)).andThen (ih _ _)

theorem keeps_wireSelect (K : Consts) (B : Bridge σ) (s : Sys σ) (rom : Nat → Nat) :
    Keeps s (wireSelect K B s rom) :=
  (keeps_wireWriteByte K B s _).andThen (keeps_selectLoop K B rom 8 0 _)

theorem keeps_searchTriplet (K : Consts) (B : Bridge σ) (i : Nat) (s : Sys σ) :
    Keeps s (searchTriplet K B i s).2 :=
  (keeps_send2 K B s _ _).andThen (keeps_waitOnBusy K B _)

theorem keeps_searchStart (K : Consts) (B : Bridge σ) (s : Sys σ) :
    Keeps s (searchStart K B s) :=
  (keeps_wireReset K B s).andThen ((keeps_waitOnBusy K B _).andThen (keeps_wireWriteByte K B _ _))

theorem rxCount_append (l1 l2 : List Event) : rxCount (l1 ++ l2) = rxCount l1 + rxCount l2 := by
  unfold rxCount
  exact List.countP_append _ l1 l2

theorem rxCount_readStatus (K : Consts) (B : Bridge σ) (s : Sys σ) :
    rxCount (readStatus K B s).2.log = rxCount s.log + 1 := by
  simp [readStatus, readByte, setReadPointer, end_, writeByte, begin, rxCount_append, rxCount]

theorem rxCount_delay (s : Sys σ) (us : Nat) :
    rxCount (delayMicroseconds s us).log = rxCount s.log := by
  simp [delayMicroseconds, rxCount_append, rxCount]

theorem waitLoop_mError (K : Consts) (B : Bridge σ) (n st : Nat) (s : Sys σ) :
    (waitLoop K B n st s).2.mError = s.mError := by
  induction n generalizing st s with
  | zero => rfl
  | succ n ih =>
    rw [waitLoop]
    split
    · rfl
    · rw [ih]; rfl

theorem readStatus_fst (K : Consts) (B : Bridge σ) (s : Sys σ) :
    (readStatus K B s).1 = (statusRead K B s.mAddress s.dev).1 := rfl

theorem readStatus_dev (K : Consts) (B : Bridge σ) (s : Sys σ) :
    (readStatus K B s).2.dev = (statusRead K B s.mAddress s.dev).2 := rfl

theorem readStatus_log (K : Consts) (B : Bridge σ) (s : Sys σ) :
    (readStatus K B s).2.log = s.log ++
      [Event.tx s.mAddress [K.DS2482_COMMAND_SRP % 256, K.DS2482_POINTER_STATUS % 256],
       Event.rx s.mAddress (statusRead K B s.mAddress s.dev).1] := by
  simp [readStatus, readByte, setReadPointer, end_, writeByte, begin, statusRead]

theorem pollEvents_clear (K : Consts) (a st : Nat) (h : st &&& K.DS2482_STATUS_BUSY = 0) :
    pollEvents K a st =
      [Event.tx a [K.DS2482_COMMAND_SRP % 256, K.DS2482_POINTER_STATUS % 256],
       Event.rx a st] := by
  unfold pollEvents
  rw [if_neg (not_not.mpr h)]
  simp

theorem pollEvents_busy (K : Consts) (a st : Nat) (h : st &&& K.DS2482_STATUS_BUSY ≠ 0) :
    pollEvents K a st =
      [Event.tx a [K.DS2482_COMMAND_SRP % 256, K.DS2482_POINTER_STATUS % 256],
       Event.rx a st, Event.delay 20] := by
  unfold pollEvents
  rw [if_pos h]
  simp

theorem rxCount_pollEvents (K : Consts) (a st : Nat) : rxCount (pollEvents K a st) = 1 := by
  unfold pollEvents
  split <;> simp [rxCount]

theorem rxCount_pollLog (K : Consts) (B : Bridge σ) (a n : Nat) : ∀ d : σ,
    rxCount (pollLog K B a n d) = n := by
  induction n with
  | zero => intro d; rfl
  | succ n ih =>
    intro d
    rw [pollLog, rxCount_append, rxCount_pollEvents, ih]
    omega

theorem statusSeq_succ (K : Consts) (B : Bridge σ) (a j : Nat) (d : σ) :
    statusSeq K B a (j + 1) d = statusSeq K B a j (statusRead K B a d).2 := by
  rw [statusSeq]

theorem waitLoop_spec (K : Consts) (B : Bridge σ) (n : Nat) :
    ∀ (k st : Nat) (s : Sys σ), 0 < n →
      (∀ j, j < k → j < n →
        statusSeq K B s.mAddress j s.dev &&& K.DS2482_STATUS_BUSY ≠ 0) →
      (k < n → statusSeq K B s.mAddress k s.dev &&& K.DS2482_STATUS_BUSY = 0) →
      (waitLoop K B n st s).1 = statusSeq K B s.mAddress (min k (n - 1)) s.dev ∧
      (waitLoop K B n st s).2.log = s.log ++ pollLog K B s.mAddress (min (k + 1) n) s.dev ∧
      (waitLoop K B n st s).2.dev = statusDev K B s.mAddress (min (k + 1) n) s.dev ∧
      (waitLoop K B n st s).2.mError = s.mError := by
  induction n with
  | zero => intro k st s h; exact absurd h (Nat.lt_irrefl 0)
  | succ n ih =>
    intro k st s _ hbusy hclear
    rw [waitLoop]
    cases k with
    | zero =>
      have h0 : (readStatus K B s).1 &&& K.DS2482_STATUS_BUSY = 0 := hclear (Nat.succ_pos n)
      have h0' : (statusRead K B s.mAddress s.dev).1 &&& K.DS2482_STATUS_BUSY = 0 := h0
      have hm : min (0 + 1) (n + 1) = 0 + 1 := by omega
      rw [if_pos h0, hm, Nat.zero_min]
      refine ⟨readStatus_fst K B s, ?_, readStatus_dev K B s, rfl⟩
      rw [readStatus_log, pollLog, pollLog, pollEvents_clear K _ _ h0', List.append_nil]
    | succ k =>
      have h0 : (readStatus K B s).1 &&& K.DS2482_STATUS_BUSY ≠ 0 :=
        hbusy 0 (Nat.succ_pos k) (Nat.succ_pos n)
      have h0' : (statusRead K B s.mAddress s.dev).1 &&& K.DS2482_STATUS_BUSY ≠ 0 := h0
      have hlog : (delayMicroseconds (readStatus K B s).2 20).log =
          s.log ++ pollEvents K s.mAddress (statusRead K B s.mAddress s.dev).1 := by
        show (readStatus K B s).2.log ++ [Event.delay 20] = _
        rw [readStatus_log, pollEvents_busy K _ _ h0']
        simp
      rw [if_neg h0]
      rcases Nat.eq_zero_or_pos n with hn | hn
      · subst hn
        have hm : min (k + 1 + 1) (0 + 1) = 0 + 1 := by omega
        have hm0 : min (k + 1) (0 + 1 - 1) = 0 := by omega
        rw [hm, hm0, waitLoop]
        refine ⟨readStatus_fst K B s, ?_, readStatus_dev K B s, rfl⟩
        show (delayMicroseconds (readStatus K B s).2 20).log = _
        rw [hlog, pollLog, pollLog, List.append_nil]
      · have hb : ∀ j, j < k → j < n →
            statusSeq K B (delayMicroseconds (readStatus K B s).2 20).mAddress j
              (delayMicroseconds (readStatus K B s).2 20).dev &&&
              K.DS2482_STATUS_BUSY ≠ 0 := by
          intro j hj hjn
          have := hbusy (j + 1) (by omega) (by omega)
          rw [statusSeq_succ] at this
          exact this
        have hc : k < n →
            statusSeq K B (delayMicroseconds (readStatus K B s).2 20).mAddress k
              (delayMicroseconds (readStatus K B s).2 20).dev &&&
              K.DS2482_STATUS_BUSY = 0 := by
          intro hk
          have := hclear (by omega)
          rw [statusSeq_succ] at this
          exact this
        obtain ⟨e1, e2, e3, e4⟩ := ih k (readStatus K B s).1
          (delayMicroseconds (readStatus K B s).2 20) hn hb hc
        have hm1 : min (k + 1) (n + 1 - 1) = min k (n - 1) + 1 := by omega
        have hm2 : min (k + 1 + 1) (n + 1) = min (k + 1) n + 1 := by omega
        have hmA : (delayMicroseconds (readStatus K B s).2 20).mAddress = s.mAddress :=
          ((keeps_readStatus K B s).andThen (keeps_delay _ 20)).mAddress
        have hdv : (delayMicroseconds (readStatus K B s).2 20).dev =
            (statusRead K B s.mAddress s.dev).2 := readStatus_dev K B s
        rw [hmA, hdv] at e1 e2 e3
        rw [hm1, hm2, statusSeq_succ, statusDev, pollLog]
        refine ⟨e1, ?_, e3, ?_⟩
        · rw [e2, hlog, List.append_assoc]
        · rw [e4]; rfl

/-- The behaviour of `waitOnBusy` against the status sequence of the bridge. -/
theorem waitOnBusy_spec (K : Consts) (B : Bridge σ) (s : Sys σ) (k : Nat)
    (hbusy : ∀ j, j < k → j < 1000 →
      statusSeq K B s.mAddress j s.dev &&& K.DS2482_STATUS_BUSY ≠ 0)
    (hclear : k < 1000 → statusSeq K B s.mAddress k s.dev &&& K.DS2482_STATUS_BUSY = 0) :
    (waitOnBusy K B s).2.log = s.log ++ pollLog K B s.mAddress (min (k + 1) 1000) s.dev ∧
    (waitOnBusy K B s).2.dev = statusDev K B s.mAddress (min (k + 1) 1000) s.dev ∧
    (waitOnBusy K B s).1 = statusSeq K B s.mAddress (min k 999) s.dev ∧
    (waitOnBusy K B s).2.mError = (if 1000 ≤ k then 1 else s.mError) := by
  obtain ⟨e1, e2, e3, e4⟩ := waitLoop_spec K B 1000 k 0 s (by decide) hbusy hclear
  have e1' : (waitLoop K B 1000 0 s).1 = statusSeq K B s.mAddress (min k 999) s.dev := e1
  unfold waitOnBusy
  dsimp only
  by_cases hk : 1000 ≤ k
  · have hb : (waitLoop K B 1000 0 s).1 &&& K.DS2482_STATUS_BUSY ≠ 0 := by
      rw [e1']
      have : min k 999 = 999 := by omega
      rw [this]
      exact hbusy 999 (by omega) (by decide)
    rw [if_pos hb, if_pos hk]
    exact ⟨e2, e3, e1', rfl⟩
  · have hb : ¬ (waitLoop K B 1000 0 s).1 &&& K.DS2482_STATUS_BUSY ≠ 0 := by
      rw [e1']
      have : min k 999 = k := by omega
      rw [this]
      exact not_not.mpr (hclear (by omega))
    rw [if_neg hb, if_neg hk]
    exact ⟨e2, e3, e1', e4⟩

theorem configByte_nibbles (c : Nat) (hc : c ≤ 15) : configByte c % 256 = c + 16 * (15 - c) := by
  interval_cases c <;> decide

theorem writeConfigSend_log (K : Consts) (B : Bridge σ) (s : Sys σ) (c : Nat) :
    (writeConfigSend K B s c).log = (waitOnBusy K B s).2.log ++
      [Event.tx s.mAddress [K.DS2482_COMMAND_WRITECONFIG % 256, configByte c % 256]] := by
  have h := (keeps_waitOnBusy K B s).mAddress
  simp [writeConfigSend, end_, writeByte, begin, h]

theorem writeConfig_log (K : Consts) (B : Bridge σ) (s : Sys σ) (c : Nat) :
    (writeConfig K B s c).log = (writeConfigSend K B s c).log ++
      [Event.rx s.mAddress (readByte B (writeConfigSend K B s c)).1] := by
  have h := (keeps_writeConfigSend K B s c).mAddress
  unfold writeConfig
  dsimp only
  split <;> simp [readByte, h]

theorem Keeps.ctl {s t : Sys σ} (h : Keeps s t) : KeepsCtl s t :=
  ⟨h.mAddress, h.disc, h.flag, h.err⟩

theorem KeepsCtl.andThenCtl {s t u : Sys σ} (h1 : KeepsCtl s t) (h2 : KeepsCtl t u) :
    KeepsCtl s u := by
  refine ⟨h2.mAddress.trans h1.mAddress, h2.disc.trans h1.disc, h2.flag.trans h1.flag, ?_⟩
  rcases h2.err with h | h
  · rcases h1.err with g | g
    · exact Or.inl (h.trans g)
    · exact Or.inr (h.trans g)
  · exact Or.inr h

theorem keepsCtl_searchBody (K : Consts) (B : Bridge σ) (i lz : Nat) (s : Sys σ) :
    KeepsCtl s (searchBody K B i lz s).sys := by
  have h := (keeps_searchTriplet K B i s).ctl
  unfold searchBody
  dsimp only
  split
  · exact h
  · dsimp only
    split
    · exact h.andThenCtl ⟨rfl, rfl, rfl, Or.inl rfl⟩
    · exact h.andThenCtl ⟨rfl, rfl, rfl, Or.inl rfl⟩

theorem keepsCtl_searchLoop (K : Consts) (B : Bridge σ) (n i lz : Nat) (s : Sys σ) :
    KeepsCtl s (searchLoop K B n i lz s).sys := by
  induction n generalizing i lz s with
  | zero => exact ⟨rfl, rfl, rfl, Or.inl rfl⟩
  | succ n ih =>
    rw [searchLoop]
    split
    · exact keepsCtl_searchBody K B i lz s
    · exact (keepsCtl_searchBody K B i lz s).andThenCtl (ih _ _ _)

theorem wireSearch_err (K : Consts) (B : Bridge σ) (s : Sys σ) (a : Nat → Nat) :
    (wireSearch K B s a).sys.mError = s.mError ∨ (wireSearch K B s a).sys.mError = 1 := by
  have h1 := (keeps_wireReset K B s).err
  have h2 := ((keeps_searchStart K B s).ctl.andThenCtl
    (keepsCtl_searchLoop K B 64 0 0 (searchStart K B s))).err
  unfold wireSearch
  dsimp only
  split
  · exact Or.inl rfl
  · split
    · exact h1
    · split
      · exact h2
      · dsimp only
        split <;> exact h2

theorem sticky_of_err {a b : Nat} (h : b = a ∨ b = 1) (ha : a ≠ 0) : b ≠ 0 := by
  rcases h with g | g
  · rw [g]; exact ha
  · rw [g]; exact one_ne_zero

theorem crcStep_lt (crc inbyte : Nat) (h : crc < 256) : (crcStep crc inbyte).1 < 256 := by
  unfold crcStep
  dsimp only
  split
  · exact Nat.mod_lt _ (by decide)
  · rw [Nat.shiftRight_eq_div_pow]
    exact lt_of_le_of_lt (Nat.div_le_self _ _) h

theorem crcBits_lt (n crc inbyte : Nat) (h : crc < 256) : crcBits n crc inbyte < 256 := by
  induction n generalizing crc inbyte with
  | zero => exact h
  | succ n ih => exact ih _ _ (crcStep_lt crc inbyte h)

theorem shr_xor_lt (x : Nat) (h : x < 256) : (x >>> 1) ^^^ 0x8C < 256 := by
  have h1 : x >>> 1 < 2 ^ 8 := by
    rw [Nat.shiftRight_eq_div_pow]
    exact lt_of_le_of_lt (Nat.div_le_self _ _) h
  exact Nat.xor_lt_two_pow h1 (by decide)

theorem land_one_eq (x : Nat) : x &&& 1 = (x.testBit 0).toNat := by
  rw [Nat.and_one_is_mod, Nat.testBit_zero]
  rcases Nat.mod_two_eq_zero_or_one x with h | h <;> simp [h]

theorem crcStep_eq_ref (crc b j : Nat) (h : crc < 256) :
    (crcStep crc (b >>> j)).1 = refCrcBit crc (b.testBit j) := by
  have hmix : (crc ^^^ (b >>> j)) &&& 1 = (crc ^^^ (b.testBit j).toNat) &&& 1 := by
    have ht : ∀ c : Bool, c.toNat.testBit 0 = c := by decide
    rw [land_one_eq, land_one_eq, Nat.testBit_xor, Nat.testBit_xor, Nat.testBit_shiftRight, ht,
      Nat.add_zero]
  unfold crcStep refCrcBit
  dsimp only
  rw [hmix, Nat.mod_eq_of_lt (shr_xor_lt crc h)]
  have h01 : (crc ^^^ (b.testBit j).toNat) &&& 1 = 0 ∨ (crc ^^^ (b.testBit j).toNat) &&& 1 = 1 := by
    rw [Nat.and_one_is_mod]
    exact Nat.mod_two_eq_zero_or_one _
  rcases h01 with h0 | h1
  · simp [h0]
  · simp [h1]

theorem crcBits_eq_ref (b n : Nat) : ∀ j crc, crc < 256 →
    crcBits n crc (b >>> j) =
      (List.range' j n).foldl (fun r k => refCrcBit r (b.testBit k)) crc := by
  induction n with
  | zero => intro j crc _; rfl
  | succ n ih =>
    intro j crc h
    rw [crcBits, List.range'_succ, List.foldl_cons]
    have e : (crcStep crc (b >>> j)).2 = b >>> (j + 1) := by
      simp [crcStep, Nat.shiftRight_add]
    rw [e, crcStep_eq_ref crc b j h]
    have hlt := crcStep_lt crc (b >>> j) h
    rw [crcStep_eq_ref crc b j h] at hlt
    exact ih (j + 1) _ hlt

theorem crcBits_byte_eq_ref (crc b : Nat) (h : crc < 256) :
    crcBits 8 crc (b % 256) =
      (List.range 8).foldl (fun r k => refCrcBit r (b.testBit k)) crc := by
  have := crcBits_eq_ref (b % 256) 8 0 crc h
  rw [Nat.shiftRight_zero] at this
  rw [this, List.range_eq_range']
  have hb : ∀ k, k < 8 → (b % 256).testBit k = b.testBit k := by
    intro k hk
    have : (256 : Nat) = 2 ^ 8 := by norm_num
    rw [this, Nat.testBit_mod_two_pow]
    simp [hk]
  simp [List.range'_succ, hb]

theorem crc8Loop_ptr (l : List Nat) : ∀ (pre : List Nat) (crc : Nat),
    crc8Loop (ptr (pre ++ l)) l.length pre.length crc =
      l.foldl (fun c b => crcBits 8 c (b % 256)) crc := by
  induction l with
  | nil => intro pre crc; rfl
  | cons b t ih =>
    intro pre crc
    rw [List.length_cons, crc8Loop, List.foldl_cons]
    have hb : ptr (pre ++ b :: t) pre.length = b := by
      unfold ptr
      rw [List.getD_append_right _ _ _ _ (Nat.le_refl _), Nat.sub_self]
      rfl
    rw [hb]
    have := ih (pre ++ [b]) (crcBits 8 crc (b % 256))
    simpa using this

theorem crc8_ptr (l : List Nat) :
    crc8 (ptr l) l.length = l.foldl (fun c b => crcBits 8 c (b % 256)) 0 := by
  have := crc8Loop_ptr l [] 0
  simpa [crc8] using this

theorem foldl_crc_lt (l : List Nat) (crc : Nat) (h : crc < 256) :
    l.foldl (fun c b => crcBits 8 c (b % 256)) crc < 256 := by
  induction l generalizing crc with
  | nil => exact h
  | cons b t ih => exact ih _ (crcBits_lt 8 crc _ h)

theorem foldl_crc_eq_ref (l : List Nat) (crc : Nat) (h : crc < 256) :
    l.foldl (fun c b => crcBits 8 c (b % 256)) crc =
      l.foldl (fun reg b => (List.range 8).foldl (fun r k => refCrcBit r (b.testBit k)) reg)
        crc := by
  induction l generalizing crc with
  | nil => rfl
  | cons b t ih =>
    rw [List.foldl_cons, List.foldl_cons, ← crcBits_byte_eq_ref crc b h]
    exact ih _ (crcBits_lt 8 crc _ h)

theorem crcStep_xor (r b : Nat) (hr : r < 256) (hb : b < 256) :
    (crcStep r b).1 ^^^ (crcStep r b).2 = (crcStep (r ^^^ b) 0).1 := by
  have hx : r ^^^ b < 256 := @Nat.xor_lt_two_pow r b 8 hr hb
  have hs : (r ^^^ b) >>> 1 = (r >>> 1) ^^^ (b >>> 1) := by
    apply Nat.eq_of_testBit_eq
    intro i
    simp
  unfold crcStep
  dsimp only
  rw [Nat.xor_zero]
  split
  · rw [Nat.mod_eq_of_lt (shr_xor_lt r hr), Nat.mod_eq_of_lt (shr_xor_lt _ hx), hs]
    rw [Nat.xor_assoc, Nat.xor_comm 0x8C, ← Nat.xor_assoc]
  · exact hs.symm

theorem crcBits_xor (n : Nat) : ∀ r b, r < 256 → b < 256 →
    crcBits n r b ^^^ (b >>> n) = crcBits n (r ^^^ b) 0 := by
  induction n with
  | zero => intro r b _ _; rfl
  | succ n ih =>
    intro r b hr hb
    rw [crcBits, crcBits]
    have h2 : (crcStep r b).2 = b >>> 1 := rfl
    have h20 : (crcStep (r ^^^ b) 0).2 = 0 := rfl
    have hb' : (crcStep r b).2 < 256 := by
      rw [h2, Nat.shiftRight_eq_div_pow]
      exact lt_of_le_of_lt (Nat.div_le_self _ _) hb
    have e : b >>> (n + 1) = (crcStep r b).2 >>> n := by
      rw [h2, Nat.add_comm, Nat.shiftRight_add]
    rw [e, ih _ _ (crcStep_lt r b hr) hb', crcStep_xor r b hr hb, h20]

theorem crcBits_zero_iff : ∀ x < 256, (crcBits 8 x 0 = 0 ↔ x = 0) := by decide!

theorem crcBits_residue (r b : Nat) (hr : r < 256) (hb : b < 256) :
    crcBits 8 r b = 0 ↔ b = r := by
  have h := crcBits_xor 8 r b hr hb
  have h8 : b >>> 8 = 0 := by
    rw [Nat.shiftRight_eq_div_pow]
    exact Nat.div_eq_of_lt hb
  rw [h8, Nat.xor_zero] at h
  rw [h, crcBits_zero_iff _ (@Nat.xor_lt_two_pow r b 8 hr hb), Nat.xor_eq_zero]
  exact eq_comm

theorem crc8Loop_snoc (a : Nat → Nat) (n : Nat) : ∀ p crc,
    crc8Loop a (n + 1) p crc = crcBits 8 (crc8Loop a n p crc) (a (p + n) % 256) := by
  induction n with
  | zero => intro p crc; rfl
  | succ n ih =>
    intro p crc
    rw [crc8Loop, ih (p + 1), crc8Loop]
    have : p + 1 + n = p + (n + 1) := by omega
    rw [this]

theorem crc8Loop_lt (a : Nat → Nat) (n : Nat) : ∀ p crc, crc < 256 → crc8Loop a n p crc < 256 := by
  induction n with
  | zero => intro p crc h; exact h
  | succ n ih => intro p crc h; exact ih _ _ (crcBits_lt 8 crc _ h)

theorem lor_land (a b m : Nat) : (a ||| b) &&& m = (a &&& m) ||| (b &&& m) := by
  apply Nat.eq_of_testBit_eq
  intro i
  simp [Bool.and_or_distrib_right]

theorem ite_land (p : Prop) [Decidable p] (a m : Nat) :
    (if p then a else 0) &&& m = if p then a &&& m else 0 := by
  split <;> simp

theorem simStatus_lt (K : Consts) (hK : K.WF) (d : Sim) : simStatus K d < 256 := by
  obtain ⟨_, ⟨h1, h2, h3, h4, h5⟩, _⟩ := hK
  have z : (0 : Nat) < 2 ^ 8 := by norm_num
  have e : (256 : Nat) = 2 ^ 8 := by norm_num
  rw [e] at h1 h2 h3 h4 h5 ⊢
  unfold simStatus
  refine Nat.or_lt_two_pow (Nat.or_lt_two_pow (Nat.or_lt_two_pow (Nat.or_lt_two_pow ?_ ?_) ?_) ?_) ?_
  all_goals split <;> assumption

theorem simStatus_busy (K : Consts) (hK : K.WF) (d : Sim) :
    simStatus K d &&& K.DS2482_STATUS_BUSY = 0 ↔ d.busy = 0 := by
  obtain ⟨⟨n1, _⟩, _, ⟨d1, d2, d3, d4, d5, d6, d7, d8, d9, d10⟩, _⟩ := hK
  rw [Nat.and_comm] at d1 d2 d3 d4
  simp only [simStatus, lor_land, ite_land, Nat.and_self, d1, d2, d3, d4, ite_self, Nat.or_zero]
  by_cases h : d.busy = 0 <;> simp [h, n1]

theorem simStatus_ppd (K : Consts) (hK : K.WF) (d : Sim) :
    simStatus K d &&& K.DS2482_STATUS_PPD ≠ 0 ↔ d.ppd = true := by
  obtain ⟨⟨_, n2, _⟩, _, ⟨d1, d2, d3, d4, d5, d6, d7, d8, d9, d10⟩, _⟩ := hK
  rw [Nat.and_comm] at d5 d6 d7
  simp only [simStatus, lor_land, ite_land, Nat.and_self, d1, d5, d6, d7, ite_self, Nat.or_zero,
    Nat.zero_or]
  cases d.ppd <;> simp [n2]

theorem simStatus_sbr (K : Consts) (hK : K.WF) (d : Sim) :
    simStatus K d &&& K.DS2482_STATUS_SBR ≠ 0 ↔ d.sbr = true := by
  obtain ⟨⟨_, _, n3, _⟩, _, ⟨d1, d2, d3, d4, d5, d6, d7, d8, d9, d10⟩, _⟩ := hK
  rw [Nat.and_comm] at d8 d9
  simp only [simStatus, lor_land, ite_land, Nat.and_self, d2, d5, d8, d9, ite_self, Nat.or_zero,
    Nat.zero_or]
  cases d.sbr <;> simp [n3]

theorem simStatus_tsb (K : Consts) (hK : K.WF) (d : Sim) :
    simStatus K d &&& K.DS2482_STATUS_TSB ≠ 0 ↔ d.tsb = true := by
  obtain ⟨⟨_, _, _, n4, _⟩, _, ⟨d1, d2, d3, d4, d5, d6, d7, d8, d9, d10⟩, _⟩ := hK
  rw [Nat.and_comm] at d10
  simp only [simStatus, lor_land, ite_land, Nat.and_self, d3, d6, d8, d10, ite_self, Nat.or_zero,
    Nat.zero_or]
  cases d.tsb <;> simp [n4]

theorem simStatus_dir (K : Consts) (hK : K.WF) (d : Sim) :
    simStatus K d &&& K.DS2482_STATUS_DIR ≠ 0 ↔ d.dir = true := by
  obtain ⟨⟨_, _, _, _, n5⟩, _, ⟨d1, d2, d3, d4, d5, d6, d7, d8, d9, d10⟩, _⟩ := hK
  simp only [simStatus, lor_land, ite_land, Nat.and_self, d4, d7, d9, d10, ite_self, Nat.or_zero,
    Nat.zero_or]
  cases d.dir <;> simp [n5]

theorem readStatus_sim (K : Consts) (hK : K.WF) (t : Sys Sim) :
    (readStatus K (simBridge K) t).1 = simStatus K t.dev ∧
    (readStatus K (simBridge K) t).2.dev = simPolled K t.dev := by
  have h := simStatus_lt K hK t.dev
  obtain ⟨_, _, _, ⟨c1, _⟩, _, ⟨p1, _⟩⟩ := hK
  have hs : simStatus K { t.dev with pointer := K.DS2482_POINTER_STATUS } = simStatus K t.dev := rfl
  simp [readStatus, readByte, setReadPointer, end_, writeByte, begin, simBridge, simTransmit,
    simReceive, Nat.mod_eq_of_lt c1, Nat.mod_eq_of_lt p1, hs, Nat.mod_eq_of_lt h, simPolled]

theorem simStatus_simIdle_busy (K : Consts) (hK : K.WF) (d : Sim) :
    simStatus K (simIdle K d) &&& K.DS2482_STATUS_BUSY = 0 :=
  (simStatus_busy K hK _).mpr rfl

theorem simPolled_of_idle (K : Consts) (d : Sim) (h : d.busy = 0) :
    simPolled K d = simIdle K d := by
  simp [simPolled, simIdle, h]

theorem simStatus_of_idle (K : Consts) (d : Sim) (h : d.busy = 0) :
    simStatus K d = simStatus K (simIdle K d) := by
  simp [simStatus, simIdle, h]

theorem waitLoop_sim (K : Consts) (hK : K.WF) (n : Nat) : ∀ (st : Nat) (t : Sys Sim),
    t.dev.busy < n →
    (waitLoop K (simBridge K) n st t).1 = simStatus K (simIdle K t.dev) ∧
    (waitLoop K (simBridge K) n st t).2.dev = simIdle K t.dev := by
  induction n with
  | zero => intro st t h; exact absurd h (Nat.not_lt_zero _)
  | succ n ih =>
    intro st t h
    obtain ⟨r1, r2⟩ := readStatus_sim K hK t
    rw [waitLoop]
    by_cases hb : t.dev.busy = 0
    · have h0 : (readStatus K (simBridge K) t).1 &&& K.DS2482_STATUS_BUSY = 0 := by
        rw [r1]; exact (simStatus_busy K hK _).mpr hb
      rw [if_pos h0, r1, r2]
      exact ⟨simStatus_of_idle K _ hb, simPolled_of_idle K _ hb⟩
    · have h0 : ¬ (readStatus K (simBridge K) t).1 &&& K.DS2482_STATUS_BUSY = 0 := by
        rw [r1]; exact fun hh => hb ((simStatus_busy K hK _).mp hh)
      rw [if_neg h0]
      have hd : (delayMicroseconds (readStatus K (simBridge K) t).2 20).dev =
          simPolled K t.dev := r2
      have hlt : (delayMicroseconds (readStatus K (simBridge K) t).2 20).dev.busy < n := by
        rw [hd]
        show t.dev.busy - 1 < n
        omega
      obtain ⟨i1, i2⟩ := ih (readStatus K (simBridge K) t).1 _ hlt
      rw [i1, i2, hd]
      exact ⟨rfl, rfl⟩

theorem waitOnBusy_sim (K : Consts) (hK : K.WF) (t : Sys Sim) (h : t.dev.busy < 1000) :
    (waitOnBusy K (simBridge K) t).1 = simStatus K (simIdle K t.dev) ∧
    (waitOnBusy K (simBridge K) t).2.dev = simIdle K t.dev ∧
    (waitOnBusy K (simBridge K) t).2.mError = t.mError := by
  obtain ⟨w1, w2⟩ := waitLoop_sim K hK 1000 0 t h
  have hb : ¬ (waitLoop K (simBridge K) 1000 0 t).1 &&& K.DS2482_STATUS_BUSY ≠ 0 := by
    rw [w1]
    exact not_not.mpr (simStatus_simIdle_busy K hK _)
  unfold waitOnBusy
  dsimp only
  rw [if_neg hb]
  exact ⟨w1, w2, waitLoop_mError K (simBridge K) 1000 0 t⟩

theorem agrees_iff (a : Nat → Nat) (n r : Nat) :
    agrees a n r = true ↔ ∀ j, j < n → r.testBit j = addrBit a j := by
  simp [agrees]

theorem send1_dev (B : Bridge σ) (s : Sys σ) (a : Nat) :
    (end_ B (writeByte (begin s) a)).2.dev = (B.transmit s.dev s.mAddress [a % 256]).2 := rfl

theorem send2_dev (B : Bridge σ) (s : Sys σ) (a b : Nat) :
    (end_ B (writeByte (writeByte (begin s) a) b)).2.dev =
      (B.transmit s.dev s.mAddress [a % 256, b % 256]).2 := rfl

theorem simTransmit_triplet (K : Consts) (hK : K.WF) (d : Sim) (addr x : Nat) :
    (simTransmit K d addr [K.DS2482_COMMAND_TRIPLET % 256, x % 256]).2 =
      simTriplet K d ((x % 256).testBit 7) := by
  obtain ⟨_, _, _, ⟨_, c2, _⟩, ⟨n1, _⟩, _⟩ := hK
  simp [simTransmit, Nat.mod_eq_of_lt c2, n1]

theorem simTransmit_writeByte (K : Consts) (hK : K.WF) (d : Sim) (addr x : Nat) :
    (simTransmit K d addr [K.DS2482_COMMAND_WRITEBYTE % 256, x % 256]).2 =
      simWriteByte K d (x % 256) := by
  obtain ⟨_, _, _, ⟨_, _, c3, _⟩, ⟨_, n2, n3, _⟩, _⟩ := hK
  simp [simTransmit, Nat.mod_eq_of_lt c3, n2, n3]

theorem simTransmit_reset (K : Consts) (hK : K.WF) (d : Sim) (addr : Nat) :
    (simTransmit K d addr [K.DS2482_COMMAND_RESETWIRE % 256]).2 = simReset K d := by
  obtain ⟨_, _, _, ⟨_, _, _, _, c5, _⟩, _, _⟩ := hK
  simp [simTransmit, Nat.mod_eq_of_lt c5]

theorem simTransmit_writeConfig (K : Consts) (hK : K.WF) (d : Sim) (addr x : Nat) :
    (simTransmit K d addr [K.DS2482_COMMAND_WRITECONFIG % 256, x % 256]).2 =
      simWriteConfig K d (x % 256) := by
  obtain ⟨_, _, _, ⟨_, _, _, c4, _⟩, ⟨_, _, _, n4, n5, n6⟩, _⟩ := hK
  simp [simTransmit, Nat.mod_eq_of_lt c4, n4, n5, n6]

theorem dirByte_testBit (x : Nat) :
    ((if x ≠ 0 then 0x80 else 0x00 : Nat) % 256).testBit 7 = decide (x ≠ 0) := by
  by_cases h : x = 0
  · simp [h]
  · simp only [ne_eq, h, not_false_eq_true, if_true, decide_True]
    decide

theorem searchTriplet_sim (K : Consts) (hK : K.WF) (i : Nat) (t : Sys Sim)
    (hb : t.dev.busy < 1000) (hl : t.dev.latency < 1000) :
    (searchTriplet K (simBridge K) i t).1 = simStatus K (simIdle K
      (simTriplet K (simIdle K t.dev) (decide (searchDirection t i ≠ 0)))) ∧
    (searchTriplet K (simBridge K) i t).2.dev = simIdle K
      (simTriplet K (simIdle K t.dev) (decide (searchDirection t i ≠ 0))) := by
  obtain ⟨_, w2, _⟩ := waitOnBusy_sim K hK t hb
  have hd : (end_ (simBridge K) (writeByte (writeByte
      (begin (waitOnBusy K (simBridge K) t).2) K.DS2482_COMMAND_TRIPLET)
      (if searchDirection t i ≠ 0 then 0x80 else 0x00))).2.dev =
      simTriplet K (simIdle K t.dev) (decide (searchDirection t i ≠ 0)) := by
    rw [send2_dev, w2]
    show (simTransmit K _ _ _).2 = _
    rw [simTransmit_triplet K hK, dirByte_testBit]
  have hb2 : (end_ (simBridge K) (writeByte (writeByte
      (begin (waitOnBusy K (simBridge K) t).2) K.DS2482_COMMAND_TRIPLET)
      (if searchDirection t i ≠ 0 then 0x80 else 0x00))).2.dev.busy < 1000 := by
    rw [hd]; exact hl
  obtain ⟨v1, v2, _⟩ := waitOnBusy_sim K hK _ hb2
  unfold searchTriplet
  dsimp only
  rw [v1, v2, hd]
  exact ⟨rfl, rfl⟩

theorem wireReset_sim (K : Consts) (hK : K.WF) (t : Sys Sim)
    (hb : t.dev.busy < 1000) (hl : t.dev.latency < 1000) :
    (wireReset K (simBridge K) t).1 = (if t.dev.roms.isEmpty then 0 else 1) ∧
    (wireReset K (simBridge K) t).2.dev = simIdle K (simReset K (simIdle K t.dev)) := by
  obtain ⟨_, w2, _⟩ := waitOnBusy_sim K hK t hb
  have hd : (end_ (simBridge K) (writeByte (begin (waitOnBusy K (simBridge K) t).2)
      K.DS2482_COMMAND_RESETWIRE)).2.dev = simReset K (simIdle K t.dev) := by
    rw [send1_dev, w2]
    show (simTransmit K _ _ _).2 = _
    rw [simTransmit_reset K hK]
  have hb2 : (end_ (simBridge K) (writeByte (begin (waitOnBusy K (simBridge K) t).2)
      K.DS2482_COMMAND_RESETWIRE)).2.dev.busy < 1000 := by
    rw [hd]; exact hl
  obtain ⟨v1, v2, _⟩ := waitOnBusy_sim K hK _ hb2
  unfold wireReset
  dsimp only
  rw [v1, v2, hd]
  refine ⟨?_, rfl⟩
  have hp := simStatus_ppd K hK (simIdle K (simReset K (simIdle K t.dev)))
  have hppd : (simIdle K (simReset K (simIdle K t.dev))).ppd = !t.dev.roms.isEmpty := rfl
  rw [hppd] at hp
  cases hr : t.dev.roms.isEmpty
  · rw [hr] at hp
    rw [if_pos (hp.mpr rfl)]
    simp
  · rw [hr] at hp
    have : ¬ simStatus K (simIdle K (simReset K (simIdle K t.dev))) &&&
        K.DS2482_STATUS_PPD ≠ 0 := fun h => by simpa using hp.mp h
    rw [if_neg this]
    simp

theorem searchStart_sim (K : Consts) (hK : K.WF) (t : Sys Sim)
    (hb : t.dev.busy < 1000) (hl : t.dev.latency < 1000) :
    (searchStart K (simBridge K) t).dev =
      simWriteByte K (simIdle K (simIdle K (simIdle K (simReset K (simIdle K t.dev)))))
        (K.WIRE_COMMAND_SEARCH % 256) := by
  obtain ⟨_, r2⟩ := wireReset_sim K hK t hb hl
  have hb1 : (wireReset K (simBridge K) t).2.dev.busy < 1000 := by
    rw [r2]; exact Nat.succ_pos _
  obtain ⟨_, w2, _⟩ := waitOnBusy_sim K hK _ hb1
  have hb2 : (waitOnBusy K (simBridge K) (wireReset K (simBridge K) t).2).2.dev.busy < 1000 := by
    rw [w2]; exact Nat.succ_pos _
  obtain ⟨_, v2, _⟩ := waitOnBusy_sim K hK _ hb2
  unfold searchStart wireWriteByte
  dsimp only
  rw [send2_dev, v2, w2, r2]
  show (simTransmit K _ _ _).2 = _
  rw [simTransmit_writeByte K hK]

theorem land_two_pow (x k : Nat) : x &&& 2 ^ k = if x.testBit k then 2 ^ k else 0 := by
  apply Nat.eq_of_testBit_eq
  intro j
  rw [Nat.testBit_and, Nat.testBit_two_pow]
  by_cases h : k = j
  · subst h
    cases hx : x.testBit k <;> simp [Nat.testBit_two_pow_self]
  · cases hx : x.testBit k <;> simp [h, Nat.testBit_two_pow_of_ne h]

theorem two_pow_lt_256 (k : Nat) (hk : k < 8) : 2 ^ k < 256 := by
  interval_cases k <;> decide

theorem searchDirection_replay (s : Sys σ) (i : Nat) (h : i < s.searchLastDiscrepancy) :
    decide (searchDirection s i ≠ 0) = addrBit s.searchAddress i := by
  have hk : i % 8 < 8 := Nat.mod_lt _ (by decide)
  unfold searchDirection addrBit
  rw [if_pos h, Nat.one_shiftLeft, land_two_pow]
  cases hx : (s.searchAddress (i / 8)).testBit (i % 8)
  · simp
  · have := two_pow_lt_256 _ hk
    have hp : 0 < 2 ^ (i % 8) := Nat.two_pow_pos _
    simp [Nat.mod_eq_of_lt this]

theorem searchDirection_at (s : Sys σ) (i : Nat) (h : i = s.searchLastDiscrepancy) :
    decide (searchDirection s i ≠ 0) = true := by
  unfold searchDirection
  simp [h]

theorem searchDirection_beyond (s : Sys σ) (i : Nat) (h : s.searchLastDiscrepancy < i) :
    decide (searchDirection s i ≠ 0) = false := by
  unfold searchDirection
  have h1 : ¬ i < s.searchLastDiscrepancy := by omega
  have h2 : ¬ i = s.searchLastDiscrepancy := by omega
  simp [h1, h2]

theorem addrBit_set (a : Nat → Nat) (i j : Nat) :
    addrBit (Function.update a (i / 8) ((a (i / 8) ||| (1 <<< (i % 8))) % 256)) j =
      if j = i then true else addrBit a j := by
  have hk : j % 8 < 8 := Nat.mod_lt _ (by decide)
  have e : (256 : Nat) = 2 ^ 8 := by norm_num
  unfold addrBit
  by_cases hb : j / 8 = i / 8
  · rw [hb, Function.update_same, e, Nat.testBit_mod_two_pow, Nat.testBit_or, Nat.one_shiftLeft,
      Nat.testBit_two_pow]
    by_cases hji : j = i
    · subst hji; simp [hk]
    · have : ¬ i % 8 = j % 8 := by omega
      simp [hk, hji, this]
  · rw [Function.update_noteq hb]
    have : ¬ j = i := fun h => hb (by rw [h])
    simp [this]

theorem addrBit_clear (a : Nat → Nat) (i j : Nat) :
    addrBit (Function.update a (i / 8) ((a (i / 8) &&& intNot (1 <<< (i % 8))) % 256)) j =
      if j = i then false else addrBit a j := by
  have hk : j % 8 < 8 := Nat.mod_lt _ (by decide)
  have e : (256 : Nat) = 2 ^ 8 := by norm_num
  have e16 : (0xFFFF : Nat) = 2 ^ 16 - 1 := by norm_num
  unfold addrBit intNot
  by_cases hb : j / 8 = i / 8
  · rw [hb, Function.update_same, e, Nat.testBit_mod_two_pow, Nat.testBit_and, Nat.testBit_xor,
      Nat.one_shiftLeft, Nat.testBit_two_pow, e16, Nat.testBit_two_pow_sub_one]
    have h16 : j % 8 < 16 := by omega
    by_cases hji : j = i
    · subst hji; simp [hk, h16]
    · have : ¬ i % 8 = j % 8 := by omega
      simp [hk, hji, this, h16]
  · rw [Function.update_noteq hb]
    have : ¬ j = i := fun h => hb (by rw [h])
    simp [this]

theorem ne_zero_iff_true_to_eq_zero {x : Nat} {b : Bool} (h : x ≠ 0 ↔ b = true) :
    x = 0 ↔ b = false := by
  cases b
  · refine ⟨fun _ => rfl, fun _ => ?_⟩
    by_contra hx
    exact absurd (h.mp hx) (by decide)
  · refine ⟨fun hx => absurd hx (h.mpr rfl), fun hf => absurd hf (by decide)⟩

theorem searchBody_sim_eq (K : Consts) (hK : K.WF) (i lz : Nat) (t : Sys Sim)
    (hb : t.dev.busy < 1000) (hl : t.dev.latency < 1000) :
    (searchBody K (simBridge K) i lz t).aborted = (simId t.dev && simComp t.dev) ∧
    ((simId t.dev && simComp t.dev) = false →
      (searchBody K (simBridge K) i lz t).last_zero =
        (if !simId t.dev && !simComp t.dev &&
            !simDrive t.dev (decide (searchDirection t i ≠ 0)) then i else lz) ∧
      (searchBody K (simBridge K) i lz t).sys.dev =
        simIdle K (simTriplet K (simIdle K t.dev) (decide (searchDirection t i ≠ 0))) ∧
      ∀ j, addrBit (searchBody K (simBridge K) i lz t).sys.searchAddress j =
        if j = i then simDrive t.dev (decide (searchDirection t i ≠ 0))
        else addrBit t.searchAddress j) := by
  obtain ⟨st1, st2⟩ := searchTriplet_sim K hK i t hb hl
  have hsa := (keeps_searchTriplet K (simBridge K) i t).searchAddress
  have hsbr := simStatus_sbr K hK (simIdle K
      (simTriplet K (simIdle K t.dev) (decide (searchDirection t i ≠ 0))))
  have htsb := simStatus_tsb K hK (simIdle K
      (simTriplet K (simIdle K t.dev) (decide (searchDirection t i ≠ 0))))
  have hdir := simStatus_dir K hK (simIdle K
      (simTriplet K (simIdle K t.dev) (decide (searchDirection t i ≠ 0))))
  rw [← st1] at hsbr htsb hdir
  have e1 : (simIdle K (simTriplet K (simIdle K t.dev)
      (decide (searchDirection t i ≠ 0)))).sbr = simId t.dev := rfl
  have e2 : (simIdle K (simTriplet K (simIdle K t.dev)
      (decide (searchDirection t i ≠ 0)))).tsb = simComp t.dev := rfl
  have e3 : (simIdle K (simTriplet K (simIdle K t.dev)
      (decide (searchDirection t i ≠ 0)))).dir =
      simDrive t.dev (decide (searchDirection t i ≠ 0)) := rfl
  rw [e1] at hsbr
  rw [e2] at htsb
  rw [e3] at hdir
  have zsbr := ne_zero_iff_true_to_eq_zero hsbr
  have ztsb := ne_zero_iff_true_to_eq_zero htsb
  have zdir := ne_zero_iff_true_to_eq_zero hdir
  unfold searchBody
  dsimp only
  simp only [hsbr, htsb, hdir, zsbr, ztsb, zdir]
  cases hid : simId t.dev <;> cases hcomp : simComp t.dev <;>
    cases hdr : simDrive t.dev (decide (searchDirection t i ≠ 0)) <;>
    simp [st2, hsa, addrBit_set, addrBit_clear]

theorem agrees_congr (a b : Nat → Nat) (n r : Nat)
    (h : ∀ j, j < n → addrBit a j = addrBit b j) : agrees a n r = agrees b n r := by
  rw [Bool.eq_iff_iff, agrees_iff, agrees_iff]
  constructor
  · intro g j hj; rw [← h j hj]; exact g j hj
  · intro g j hj; rw [h j hj]; exact g j hj

theorem agrees_mono (a : Nat → Nat) (n m r : Nat) (hnm : n ≤ m) (h : agrees a m r = true) :
    agrees a n r = true := by
  rw [agrees_iff] at h ⊢
  intro j hj
  exact h j (lt_of_lt_of_le hj hnm)

theorem agrees_succ (a : Nat → Nat) (n r : Nat) :
    agrees a (n + 1) r = (agrees a n r && (r.testBit n == addrBit a n)) := by
  rw [Bool.eq_iff_iff, Bool.and_eq_true, agrees_iff, agrees_iff, beq_iff_eq]
  constructor
  · intro g
    exact ⟨fun j hj => g j (Nat.lt_succ_of_lt hj), g n (Nat.lt_succ_self n)⟩
  · rintro ⟨g1, g2⟩ j hj
    rcases Nat.lt_succ_iff_lt_or_eq.mp hj with h | h
    · exact g1 j h
    · rw [h]; exact g2

theorem simId_true {D : List Nat} {a : Nat → Nat} {i : Nat} {d : Sim}
    (hp : d.pos = i) (ha : d.active = D.filter (agrees a i)) (h : simId d = true) :
    ∀ r, r ∈ D → agrees a i r = true → r.testBit i = true := by
  intro r hr hag
  unfold simId at h
  rw [List.all_eq_true] at h
  have := h r (by rw [ha]; exact List.mem_filter.mpr ⟨hr, hag⟩)
  rwa [hp] at this

theorem simComp_true {D : List Nat} {a : Nat → Nat} {i : Nat} {d : Sim}
    (hp : d.pos = i) (ha : d.active = D.filter (agrees a i)) (h : simComp d = true) :
    ∀ r, r ∈ D → agrees a i r = true → r.testBit i = false := by
  intro r hr hag
  unfold simComp at h
  rw [List.all_eq_true] at h
  have := h r (by rw [ha]; exact List.mem_filter.mpr ⟨hr, hag⟩)
  rw [hp] at this
  simpa using this

theorem simId_false {D : List Nat} {a : Nat → Nat} {i : Nat} {d : Sim}
    (hp : d.pos = i) (ha : d.active = D.filter (agrees a i)) (h : simId d = false) :
    ∃ r, r ∈ D ∧ agrees a i r = true ∧ r.testBit i = false := by
  unfold simId at h
  rw [List.all_eq_false] at h
  obtain ⟨r, hr, hx⟩ := h
  rw [ha] at hr
  obtain ⟨h1, h2⟩ := List.mem_filter.mp hr
  rw [hp] at hx
  exact ⟨r, h1, h2, by simpa using hx⟩

theorem simComp_false {D : List Nat} {a : Nat → Nat} {i : Nat} {d : Sim}
    (hp : d.pos = i) (ha : d.active = D.filter (agrees a i)) (h : simComp d = false) :
    ∃ r, r ∈ D ∧ agrees a i r = true ∧ r.testBit i = true := by
  unfold simComp at h
  rw [List.all_eq_false] at h
  obtain ⟨r, hr, hx⟩ := h
  rw [ha] at hr
  obtain ⟨h1, h2⟩ := List.mem_filter.mp hr
  rw [hp] at hx
  exact ⟨r, h1, h2, by simpa using hx⟩

/-- The device the driven direction of a triplet keeps on the bus. -/
theorem simDrive_keeps {D : List Nat} {a : Nat → Nat} {i : Nat} {d : Sim}
    (hp : d.pos = i) (ha : d.active = D.filter (agrees a i))
    (hne : ∃ r, r ∈ D ∧ agrees a i r = true) (req : Bool) :
    (simId d && simComp d) = false ∧
    ∃ r, r ∈ D ∧ agrees a i r = true ∧ r.testBit i = simDrive d req := by
  obtain ⟨r0, hr0, hag0⟩ := hne
  unfold simDrive
  cases hid : simId d <;> cases hcomp : simComp d
  · refine ⟨rfl, ?_⟩
    cases req
    · obtain ⟨r, h1, h2, h3⟩ := simId_false hp ha hid
      exact ⟨r, h1, h2, by simpa using h3⟩
    · obtain ⟨r, h1, h2, h3⟩ := simComp_false hp ha hcomp
      exact ⟨r, h1, h2, by simpa using h3⟩
  · exact ⟨rfl, r0, hr0, hag0, by simpa using simComp_true hp ha hcomp r0 hr0 hag0⟩
  · exact ⟨rfl, r0, hr0, hag0, by simpa using simId_true hp ha hid r0 hr0 hag0⟩
  · have h1 := simId_true hp ha hid r0 hr0 hag0
    have h2 := simComp_true hp ha hcomp r0 hr0 hag0
    rw [h1] at h2
    exact absurd h2 (by decide)

theorem searchBody_inv (K : Consts) (hK : K.WF) (D : List Nat) (a0 : Nat → Nat)
    (L i lz : Nat) (t : Sys Sim) (h : LoopInv D a0 L i lz t) :
    (searchBody K (simBridge K) i lz t).aborted = false ∧
    LoopInv D a0 L (i + 1) (searchBody K (simBridge K) i lz t).last_zero
      (searchBody K (simBridge K) i lz t).sys := by
  obtain ⟨hab, hrest⟩ := searchBody_sim_eq K hK i lz t h.busy h.lat
  obtain ⟨hnab, r1, hr1, hag1, hbit1⟩ :=
    simDrive_keeps h.pos h.active h.nonempty (decide (searchDirection t i ≠ 0))
  obtain ⟨hlz, hdev, hbits⟩ := hrest hnab
  have hctl := keepsCtl_searchBody K (simBridge K) i lz t
  have hlow : ∀ j, j < i →
      addrBit (searchBody K (simBridge K) i lz t).sys.searchAddress j =
        addrBit t.searchAddress j := by
    intro j hj
    rw [hbits, if_neg (Nat.ne_of_lt hj)]
  have hhigh : ∀ j, i < j →
      addrBit (searchBody K (simBridge K) i lz t).sys.searchAddress j =
        addrBit t.searchAddress j := by
    intro j hj
    rw [hbits, if_neg (Nat.ne_of_gt hj)]
  have hat : addrBit (searchBody K (simBridge K) i lz t).sys.searchAddress i =
      simDrive t.dev (decide (searchDirection t i ≠ 0)) := by
    rw [hbits, if_pos rfl]
  have hagr : ∀ n r, n ≤ i →
      agrees (searchBody K (simBridge K) i lz t).sys.searchAddress n r =
        agrees t.searchAddress n r :=
    fun n r hn => agrees_congr _ _ n r (fun j hj => hlow j (lt_of_lt_of_le hj hn))
  refine ⟨by rw [hab, hnab], ?_⟩
  refine
    { roms := ?_, lat := ?_, busy := ?_, pos := ?_, active := ?_, nonempty := ?_,
      disc := hctl.disc.trans h.disc, rest := ?_, lz := ?_, replay := ?_ }
  · rw [hdev]; exact h.roms
  · rw [hdev]; exact h.lat
  · rw [hdev]; exact Nat.succ_pos _
  · rw [hdev]
    show t.dev.pos + 1 = i + 1
    rw [h.pos]
  · rw [hdev]
    show t.dev.active.filter (fun r => r.testBit t.dev.pos ==
      simDrive t.dev (decide (searchDirection t i ≠ 0))) = _
    rw [h.active, h.pos, List.filter_filter]
    apply List.filter_congr
    intro r _
    rw [agrees_succ, hat, hagr i r (Nat.le_refl i), Bool.and_comm]
  · refine ⟨r1, hr1, ?_⟩
    rw [agrees_succ, hagr i r1 (Nat.le_refl i), hag1, hat, hbit1]
    simp
  · intro j hj
    rw [hhigh j (by omega)]
    exact h.rest j (by omega)
  · intro hne
    rw [hlz] at hne ⊢
    by_cases hc : (!simId t.dev && !simComp t.dev &&
        !simDrive t.dev (decide (searchDirection t i ≠ 0))) = true
    · rw [if_pos hc]
      simp only [Bool.and_eq_true, Bool.not_eq_true'] at hc
      obtain ⟨⟨_, hcomp⟩, hdrv⟩ := hc
      obtain ⟨r, g1, g2, g3⟩ := simComp_false h.pos h.active hcomp
      refine ⟨Nat.lt_succ_self i, by rw [hat, hdrv], r, g1, ?_, g3⟩
      rw [hagr i r (Nat.le_refl i)]
      exact g2
    · rw [if_neg hc] at hne ⊢
      obtain ⟨g0, g1, r, g2, g3, g4⟩ := h.lz hne
      refine ⟨Nat.lt_succ_of_lt g0, by rw [hlow lz g0]; exact g1, r, g2, ?_, g4⟩
      rw [hagr lz r (Nat.le_of_lt g0)]
      exact g3
  · intro hL hpost
    obtain ⟨q1, q2⟩ := h.replay hL hpost
    obtain ⟨⟨rs, hrs, hags⟩, hP2⟩ := hpost
    obtain ⟨hL64, hbL, rd, hrd, hagd, hbd⟩ := hP2 hL
    rw [agrees_iff] at hags hagd
    constructor
    · intro j hj hjL
      rcases Nat.lt_succ_iff_lt_or_eq.mp hj with hlt | heq
      · rw [hlow j hlt]
        exact q1 j hlt hjL
      · subst heq
        rw [hat]
        have hreq : decide (searchDirection t j ≠ 0) = addrBit a0 j := by
          rw [searchDirection_replay t j (by rw [h.disc]; exact hjL)]
          exact h.rest j (Nat.le_refl j)
        have hsag : agrees t.searchAddress j rs = true := by
          rw [agrees_iff]
          intro k hk
          rw [hags k (by omega), q1 k hk (by omega)]
        have hsb : rs.testBit j = addrBit a0 j := hags j (by omega)
        unfold simDrive
        cases hid : simId t.dev <;> cases hcomp : simComp t.dev
        · simpa using hreq
        · have := simComp_true h.pos h.active hcomp rs hrs hsag
          rw [hsb] at this
          simpa using this.symm
        · have := simId_true h.pos h.active hid rs hrs hsag
          rw [hsb] at this
          simpa using this.symm
        · have := simId_true h.pos h.active hid rs hrs hsag
          rw [hsb] at this
          simpa using this.symm
    · intro hLi
      rcases Nat.lt_succ_iff_lt_or_eq.mp hLi with hlt | heq
      · rw [hlow L hlt]
        exact q2 hlt
      · subst heq
        rw [hat]
        have hreq : decide (searchDirection t L ≠ 0) = true :=
          searchDirection_at t L h.disc.symm
        have hsag : agrees t.searchAddress L rs = true := by
          rw [agrees_iff]
          intro k hk
          rw [hags k (by omega), q1 k hk hk]
        have hdag : agrees t.searchAddress L rd = true := by
          rw [agrees_iff]
          intro k hk
          rw [hagd k hk, q1 k hk hk]
        have hsb : rs.testBit L = false := by
          rw [hags L hL64]; exact hbL
        unfold simDrive
        cases hid : simId t.dev <;> cases hcomp : simComp t.dev
        · simpa using hreq
        · have := simComp_true h.pos h.active hcomp rd hrd hdag
          rw [hbd] at this
          exact absurd this (by decide)
        · have := simId_true h.pos h.active hid rs hrs hsag
          rw [hsb] at this
          exact absurd this (by decide)
        · have := simId_true h.pos h.active hid rs hrs hsag
          rw [hsb] at this
          exact absurd this (by decide)

theorem searchLoop_inv (K : Consts) (hK : K.WF) (D : List Nat) (a0 : Nat → Nat) (L n : Nat) :
    ∀ (i lz : Nat) (t : Sys Sim), LoopInv D a0 L i lz t →
    (searchLoop K (simBridge K) n i lz t).aborted = false ∧
    LoopInv D a0 L (i + n) (searchLoop K (simBridge K) n i lz t).last_zero
      (searchLoop K (simBridge K) n i lz t).sys := by
  induction n with
  | zero => intro i lz t h; exact ⟨rfl, h⟩
  | succ n ih =>
    intro i lz t h
    obtain ⟨b1, b2⟩ := searchBody_inv K hK D a0 L i lz t h
    rw [searchLoop, b1]
    simp only [Bool.false_eq_true, if_false]
    have := ih (i + 1) _ _ b2
    have e : i + 1 + n = i + (n + 1) := by omega
    rw [e] at this
    exact this

theorem agrees_zero (a : Nat → Nat) (r : Nat) : agrees a 0 r = true := by
  rw [agrees_iff]
  intro j hj
  exact absurd hj (Nat.not_lt_zero j)

theorem loopInv_start (K : Consts) (hK : K.WF) (t : Sys Sim)
    (hb : t.dev.busy < 1000) (hl : t.dev.latency < 1000) (hne : t.dev.roms ≠ []) :
    LoopInv t.dev.roms t.searchAddress t.searchLastDiscrepancy 0 0
      (searchStart K (simBridge K) t) := by
  have hd := searchStart_sim K hK t hb hl
  have hk := keeps_searchStart K (simBridge K) t
  have hcmd : K.WIRE_COMMAND_SEARCH % 256 = K.WIRE_COMMAND_SEARCH :=
    Nat.mod_eq_of_lt hK.2.2.2.1.2.2.2.2.2
  rw [hcmd] at hd
  refine
    { roms := ?_, lat := ?_, busy := ?_, pos := ?_, active := ?_, nonempty := ?_,
      disc := hk.disc, rest := ?_, lz := ?_, replay := ?_ }
  · rw [hd]; rfl
  · rw [hd]; exact hl
  · rw [hd]; exact hl
  · rw [hd]; rfl
  · rw [hd]
    show (if K.WIRE_COMMAND_SEARCH = K.WIRE_COMMAND_SEARCH then t.dev.roms else []) = _
    rw [if_pos rfl]
    symm
    rw [List.filter_eq_self]
    intro r _
    exact agrees_zero _ r
  · obtain ⟨r, hr⟩ := List.exists_mem_of_ne_nil _ hne
    exact ⟨r, hr, agrees_zero _ r⟩
  · intro j _
    rw [hk.searchAddress]
  · intro h
    exact absurd rfl h
  · intro _ _
    exact ⟨fun j hj _ => absurd hj (Nat.not_lt_zero j), fun h => absurd h (Nat.not_lt_zero _)⟩

theorem wireSearch_success (K : Consts) (B : Bridge σ) (s : Sys σ) (buf : Nat → Nat)
    (hflag : s.searchLastDeviceFlag = 0) (hnz : (wireReset K B s).1 ≠ 0)
    (hna : (searchLoop K B 64 0 0 (searchStart K B s)).aborted = false) :
    (wireSearch K B s buf).ret = 1 ∧
    (wireSearch K B s buf).sys.searchAddress =
      (searchLoop K B 64 0 0 (searchStart K B s)).sys.searchAddress ∧
    (wireSearch K B s buf).sys.searchLastDiscrepancy =
      (searchLoop K B 64 0 0 (searchStart K B s)).last_zero ∧
    (wireSearch K B s buf).sys.searchLastDeviceFlag =
      (if (searchLoop K B 64 0 0 (searchStart K B s)).last_zero = 0 then 1 else 0) ∧
    (wireSearch K B s buf).sys.dev = (searchLoop K B 64 0 0 (searchStart K B s)).sys.dev ∧
    (wireSearch K B s buf).address = fun i =>
      if i < 8 then (searchLoop K B 64 0 0 (searchStart K B s)).sys.searchAddress i
      else buf i := by
  have hf : (searchLoop K B 64 0 0 (searchStart K B s)).sys.searchLastDeviceFlag = 0 := by
    rw [((keeps_searchStart K B s).ctl.andThenCtl (keepsCtl_searchLoop K B 64 0 0 _)).flag]
    exact hflag
  unfold wireSearch
  rw [if_neg (not_not.mpr hflag), if_neg hnz]
  dsimp only
  rw [hna]
  simp only [Bool.false_eq_true, if_false]
  by_cases hz : (searchLoop K B 64 0 0 (searchStart K B s)).last_zero = 0
  · simp [hz]
  · simp [hz, hf]

theorem wireSearch_sim (K : Consts) (hK : K.WF) (D : List Nat) (t : Sys Sim)
    (buf : Nat → Nat) (h : Ready D t) :
    Ready D (wireSearch K (simBridge K) t buf).sys ∧
    ((wireSearch K (simBridge K) t buf).ret = 0 →
      (wireSearch K (simBridge K) t buf).sys.searchAddress = t.searchAddress ∧
      (wireSearch K (simBridge K) t buf).sys.searchLastDiscrepancy = t.searchLastDiscrepancy ∧
      (wireSearch K (simBridge K) t buf).sys.searchLastDeviceFlag = t.searchLastDeviceFlag) ∧
    ((wireSearch K (simBridge K) t buf).ret ≠ 0 →
      t.searchLastDeviceFlag = 0 ∧
      (∀ j, j < 64 → addrBit (wireSearch K (simBridge K) t buf).address j =
        addrBit (wireSearch K (simBridge K) t buf).sys.searchAddress j) ∧
      ((wireSearch K (simBridge K) t buf).sys.searchLastDeviceFlag = 0 →
        (wireSearch K (simBridge K) t buf).sys.searchLastDiscrepancy ≠ 0) ∧
      (t.searchLastDiscrepancy ≠ 0 →
        LexLt t.searchAddress (wireSearch K (simBridge K) t buf).address)) := by
  obtain ⟨hroms, hl, hb, hpost⟩ := h
  by_cases hflag : t.searchLastDeviceFlag ≠ 0
  · have e : wireSearch K (simBridge K) t buf = { ret := 0, sys := t, address := buf } := by
      unfold wireSearch
      rw [if_pos hflag]
    rw [e]
    exact ⟨⟨hroms, hl, hb, hpost⟩, fun _ => ⟨rfl, rfl, rfl⟩, fun hr => absurd rfl hr⟩
  · have hflag0 : t.searchLastDeviceFlag = 0 := not_not.mp hflag
    obtain ⟨r1, r2⟩ := wireReset_sim K hK t hb hl
    have hkr := keeps_wireReset K (simBridge K) t
    by_cases hemp : t.dev.roms = []
    · have hz : (wireReset K (simBridge K) t).1 = 0 := by
        rw [r1, hemp]; rfl
      have e : wireSearch K (simBridge K) t buf =
          { ret := 0, sys := (wireReset K (simBridge K) t).2, address := buf } := by
        unfold wireSearch
        rw [if_neg hflag, if_pos hz]
      rw [e]
      refine ⟨⟨?_, ?_, ?_, ?_⟩, fun _ => ⟨hkr.searchAddress, hkr.disc, hkr.flag⟩,
        fun hr => absurd rfl hr⟩
      · show (wireReset K (simBridge K) t).2.dev.roms = D
        rw [r2]; exact hroms
      · show (wireReset K (simBridge K) t).2.dev.latency < 1000
        rw [r2]; exact hl
      · show (wireReset K (simBridge K) t).2.dev.busy < 1000
        rw [r2]; exact Nat.succ_pos _
      · show (wireReset K (simBridge K) t).2.searchLastDeviceFlag = 0 → _
        rw [hkr.flag, hkr.disc, hkr.searchAddress]
        exact hpost
    · have hnz : ¬ (wireReset K (simBridge K) t).1 = 0 := by
        rw [r1]
        cases hr : t.dev.roms with
        | nil => exact absurd hr hemp
        | cons x xs => simp
      obtain ⟨la, linv⟩ := searchLoop_inv K hK t.dev.roms t.searchAddress
        t.searchLastDiscrepancy 64 0 0 _ (loopInv_start K hK t hb hl hemp)
      rw [Nat.zero_add] at linv
      obtain ⟨w1, w2, w3, w4, w5, w6⟩ :=
        wireSearch_success K (simBridge K) t buf hflag0 hnz la
      have hbuf : ∀ j, j < 64 → addrBit (wireSearch K (simBridge K) t buf).address j =
          addrBit (wireSearch K (simBridge K) t buf).sys.searchAddress j := by
        intro j hj
        have h8 : j / 8 < 8 := by omega
        unfold addrBit
        rw [w6, w2]
        simp only [h8, if_true]
      refine ⟨⟨?_, ?_, ?_, ?_⟩, fun hr => ?_, fun _ => ⟨hflag0, hbuf, ?_, ?_⟩⟩
      · rw [w5, linv.roms]; exact hroms
      · rw [w5]; exact linv.lat
      · rw [w5]; exact linv.busy
      · intro _ hL
        rw [w3] at hL ⊢
        rw [w2]
        obtain ⟨r, hr, hag⟩ := linv.nonempty
        rw [← hroms]
        exact ⟨⟨r, hr, hag⟩, fun _ => linv.lz hL⟩
      · rw [w1] at hr
        exact absurd hr (by decide)
      · intro hf0
        rw [w4] at hf0
        rw [w3]
        intro hz
        rw [if_pos hz] at hf0
        exact absurd hf0 (by decide)
      · intro hL
        have hP := hpost hflag0 hL
        rw [← hroms] at hP
        obtain ⟨q1, q2⟩ := linv.replay hL hP
        obtain ⟨_, hP2⟩ := hP
        obtain ⟨hL64, hbL, _⟩ := hP2 hL
        refine ⟨t.searchLastDiscrepancy, hL64, ?_, hbL, ?_⟩
        · intro j hj
          rw [hbuf j (by omega), w2]
          exact (q1 j (by omega) hj).symm
        · rw [hbuf _ hL64, w2]
          exact q2 hL64

theorem bitsFold (l : List Bool) : ∀ acc : Nat,
    l.foldl (fun acc b => 2 * acc + b.toNat) acc =
      acc * 2 ^ l.length + l.foldl (fun acc b => 2 * acc + b.toNat) 0 := by
  induction l with
  | nil => intro acc; simp
  | cons b t ih =>
    intro acc
    rw [List.foldl_cons, List.foldl_cons, ih (2 * acc + b.toNat), ih (2 * 0 + b.toNat),
      List.length_cons, pow_succ]
    ring

theorem bitsValue_cons (b : Bool) (l : List Bool) :
    bitsValue (b :: l) = b.toNat * 2 ^ l.length + bitsValue l := by
  unfold bitsValue
  rw [List.foldl_cons, bitsFold l (2 * 0 + b.toNat)]
  simp

theorem bitsValue_lt (l : List Bool) : bitsValue l < 2 ^ l.length := by
  induction l with
  | nil => simp [bitsValue]
  | cons b t ih =>
    rw [bitsValue_cons, List.length_cons, pow_succ]
    have : b.toNat ≤ 1 := Bool.toNat_le b
    nlinarith

theorem bitsValue_range_lt (a b : Nat → Nat) (n : Nat) : ∀ i p, i ≤ p → p < i + n →
    (∀ j, i ≤ j → j < p → addrBit a j = addrBit b j) →
    addrBit a p = false → addrBit b p = true →
    bitsValue ((List.range' i n).map (addrBit a)) <
      bitsValue ((List.range' i n).map (addrBit b)) := by
  induction n with
  | zero => intro i p h1 h2; omega
  | succ n ih =>
    intro i p h1 h2 hlow ha hb
    rw [List.range'_succ, List.map_cons, List.map_cons, bitsValue_cons, bitsValue_cons]
    have hlen : ((List.range' (i + 1) n).map (addrBit a)).length =
        ((List.range' (i + 1) n).map (addrBit b)).length := by simp
    rw [hlen]
    rcases Nat.eq_or_lt_of_le h1 with heq | hlt
    · subst heq
      rw [ha, hb]
      have := bitsValue_lt ((List.range' (i + 1) n).map (addrBit a))
      rw [hlen] at this
      simp only [Bool.toNat_false, Bool.toNat_true, Nat.zero_mul, Nat.zero_add, Nat.one_mul]
      omega
    · rw [hlow i (Nat.le_refl i) hlt]
      have := ih (i + 1) p hlt (by omega) (fun j hj1 hj2 => hlow j (by omega) hj2) ha hb
      omega

theorem searchOrderValue_lt (a b : Nat → Nat) (h : LexLt a b) :
    searchOrderValue a < searchOrderValue b := by
  obtain ⟨p, hp, hlow, ha, hb⟩ := h
  unfold searchOrderValue
  rw [List.range_eq_range']
  exact bitsValue_range_lt a b 64 0 p (Nat.zero_le p) (by omega) (fun j _ hj => hlow j hj) ha hb

theorem searchOrderValue_congr (a b : Nat → Nat)
    (h : ∀ j, j < 64 → addrBit a j = addrBit b j) :
    searchOrderValue a = searchOrderValue b := by
  unfold searchOrderValue
  congr 1
  apply List.map_congr_left
  intro j hj
  exact h j (List.mem_range.mp hj)

theorem foundAddresses_cons (r : SearchOut σ) (rs : List (SearchOut σ)) :
    foundAddresses (r :: rs) =
      if r.ret = 0 then foundAddresses rs else r.address :: foundAddresses rs := by
  unfold foundAddresses
  by_cases h : r.ret = 0
  · simp [List.filter_cons, h]
  · simp [List.filter_cons, h]

theorem searchCalls_sim (K : Consts) (hK : K.WF) (D : List Nat) (n : Nat) :
    ∀ (t : Sys Sim) (buf : Nat → Nat), Ready D t →
    List.Chain' (fun a b => searchOrderValue a < searchOrderValue b)
      (foundAddresses (searchCalls K (simBridge K) n t buf)) ∧
    ∀ x, x ∈ foundAddresses (searchCalls K (simBridge K) n t buf) →
      t.searchLastDeviceFlag = 0 ∧
      (t.searchLastDiscrepancy ≠ 0 →
        searchOrderValue t.searchAddress < searchOrderValue x) := by
  induction n with
  | zero =>
    intro t buf _
    exact ⟨List.chain'_nil, fun x hx => absurd hx (List.not_mem_nil x)⟩
  | succ n ih =>
    intro t buf h
    obtain ⟨hready, hfail, hsucc⟩ := wireSearch_sim K hK D t buf h
    obtain ⟨ihc, ihb⟩ := ih (search K (simBridge K) t buf).sys
      (search K (simBridge K) t buf).address hready
    rw [searchCalls, foundAddresses_cons]
    by_cases hr : (search K (simBridge K) t buf).ret = 0
    · rw [if_pos hr]
      obtain ⟨f1, f2, f3⟩ := hfail hr
      refine ⟨ihc, fun x hx => ?_⟩
      obtain ⟨g1, g2⟩ := ihb x hx
      change (wireSearch K (simBridge K) t buf).sys.searchLastDeviceFlag = 0 at g1
      change (wireSearch K (simBridge K) t buf).sys.searchLastDiscrepancy ≠ 0 →
        searchOrderValue (wireSearch K (simBridge K) t buf).sys.searchAddress <
          searchOrderValue x at g2
      rw [f3] at g1
      rw [f2, f1] at g2
      exact ⟨g1, g2⟩
    · rw [if_neg hr]
      obtain ⟨s1, s2, s3, s4⟩ := hsucc hr
      have hval : searchOrderValue (search K (simBridge K) t buf).sys.searchAddress =
          searchOrderValue (search K (simBridge K) t buf).address :=
        (searchOrderValue_congr _ _ s2).symm
      have hnext : ∀ x, x ∈ foundAddresses (searchCalls K (simBridge K) n
          (search K (simBridge K) t buf).sys (search K (simBridge K) t buf).address) →
          searchOrderValue (search K (simBridge K) t buf).address < searchOrderValue x := by
        intro x hx
        obtain ⟨g1, g2⟩ := ihb x hx
        rw [← hval]
        exact g2 (s3 g1)
      refine ⟨?_, fun x hx => ?_⟩
      · rw [List.chain'_cons']
        exact ⟨fun y hy => hnext y (List.mem_of_mem_head? hy), ihc⟩
      · refine ⟨s1, fun hL => ?_⟩
        have hfirst := searchOrderValue_lt _ _ (s4 hL)
        rcases List.mem_cons.mp hx with hx | hx
        · rw [hx]; exact hfirst
        · exact lt_trans hfirst (hnext x hx)

theorem ready_reset_search (t : Sys Sim) (hb : t.dev.busy < 1000) (hl : t.dev.latency < 1000) :
    Ready t.dev.roms (reset_search t) :=
  ⟨rfl, hl, hb, fun _ h => absurd rfl h⟩

theorem searchBody_aborted (K : Consts) (B : Bridge σ) (i lz : Nat) (s : Sys σ) :
    (searchBody K B i lz s).aborted = true ↔
      ((searchTriplet K B i s).1 &&& K.DS2482_STATUS_SBR ≠ 0 ∧
        (searchTriplet K B i s).1 &&& K.DS2482_STATUS_TSB ≠ 0) := by
  unfold searchBody
  dsimp only
  split
  · rename_i h; simp only [true_iff]; exact h
  · rename_i h; simp only [Bool.false_eq_true, false_iff]; exact h

theorem searchBody_bits (K : Consts) (B : Bridge σ) (i lz : Nat) (s : Sys σ) (j : Nat)
    (hj : j ≠ i) :
    addrBit (searchBody K B i lz s).sys.searchAddress j = addrBit s.searchAddress j := by
  have hsa := (keeps_searchTriplet K B i s).searchAddress
  unfold searchBody
  dsimp only
  split
  · dsimp only; rw [hsa]
  · dsimp only
    split
    · dsimp only; rw [hsa, addrBit_set, if_neg hj]
    · dsimp only; rw [hsa, addrBit_clear, if_neg hj]

theorem searchLoop_bits (K : Consts) (B : Bridge σ) (n : Nat) : ∀ (i lz : Nat) (s : Sys σ) (j : Nat),
    i + n ≤ j →
    addrBit (searchLoop K B n i lz s).sys.searchAddress j = addrBit s.searchAddress j := by
  induction n with
  | zero => intro i lz s j _; rfl
  | succ n ih =>
    intro i lz s j hj
    rw [searchLoop]
    split
    · exact searchBody_bits K B i lz s j (by omega)
    · rw [ih (i + 1) _ _ j (by omega)]
      exact searchBody_bits K B i lz s j (by omega)

theorem searchLoop_split (K : Consts) (B : Bridge σ) (p m : Nat) :
    ∀ (i lz : Nat) (s : Sys σ), (searchLoop K B p i lz s).aborted = false →
    searchLoop K B (p + m) i lz s =
      searchLoop K B m (i + p) (searchLoop K B p i lz s).last_zero
        (searchLoop K B p i lz s).sys := by
  induction p with
  | zero => intro i lz s _; simp [searchLoop]
  | succ p ih =>
    intro i lz s h
    have e : p + 1 + m = (p + m) + 1 := by omega
    rw [e, searchLoop]
    rw [searchLoop] at h
    by_cases hb : (searchBody K B i lz s).aborted = true
    · rw [if_pos hb] at h
      rw [hb] at h
      exact absurd h (by decide)
    · rw [if_neg hb] at h
      rw [if_neg hb, ih (i + 1) _ _ h]
      have e2 : i + 1 + p = i + (p + 1) := by omega
      rw [e2]
      conv_rhs => rw [searchLoop, if_neg hb]

theorem searchLoop_bits_below (K : Consts) (B : Bridge σ) (n : Nat) :
    ∀ (i lz : Nat) (s : Sys σ) (j : Nat), j < i →
    addrBit (searchLoop K B n i lz s).sys.searchAddress j = addrBit s.searchAddress j := by
  induction n with
  | zero => intro i lz s j _; rfl
  | succ n ih =>
    intro i lz s j hj
    rw [searchLoop]
    split
    · exact searchBody_bits K B i lz s j (by omega)
    · rw [ih (i + 1) _ _ j (by omega)]
      exact searchBody_bits K B i lz s j (by omega)

theorem searchBody_bit_at (K : Consts) (B : Bridge σ) (i lz : Nat) (s : Sys σ)
    (h : (searchBody K B i lz s).aborted = false) :
    addrBit (searchBody K B i lz s).sys.searchAddress i =
      decide ((searchTriplet K B i s).1 &&& K.DS2482_STATUS_DIR ≠ 0) := by
  have hsa := (keeps_searchTriplet K B i s).searchAddress
  have hnb : ¬ ((searchTriplet K B i s).1 &&& K.DS2482_STATUS_SBR ≠ 0 ∧
      (searchTriplet K B i s).1 &&& K.DS2482_STATUS_TSB ≠ 0) := by
    intro hb
    have := (searchBody_aborted K B i lz s).mpr hb
    rw [h] at this
    exact absurd this (by decide)
  unfold searchBody
  dsimp only
  rw [if_neg hnb]
  dsimp only
  by_cases hd : (searchTriplet K B i s).1 &&& K.DS2482_STATUS_DIR ≠ 0
  · rw [if_pos hd]
    dsimp only
    rw [hsa, addrBit_set, if_pos rfl]
    exact (decide_eq_true hd).symm
  · rw [if_neg hd]
    dsimp only
    rw [hsa, addrBit_clear, if_pos rfl]
    exact (decide_eq_false hd).symm

/-- After iterations that did not abort, each bit of the working address in the
range covered holds the direction reported by the triplet of its iteration. -/
theorem searchLoop_dirs (K : Consts) (B : Bridge σ) (n : Nat) :
    ∀ (i lz : Nat) (s : Sys σ), (searchLoop K B n i lz s).aborted = false →
    ∀ j, i ≤ j → j < i + n →
    addrBit (searchLoop K B n i lz s).sys.searchAddress j =
      decide ((searchTriplet K B j (searchLoop K B (j - i) i lz s).sys).1 &&&
        K.DS2482_STATUS_DIR ≠ 0) := by
  induction n with
  | zero => intro i lz s _ j h1 h2; omega
  | succ n ih =>
    intro i lz s h j h1 h2
    rw [searchLoop] at h
    by_cases hb : (searchBody K B i lz s).aborted = true
    · rw [if_pos hb, hb] at h
      exact absurd h (by decide)
    · have hb' : (searchBody K B i lz s).aborted = false := by
        cases hx : (searchBody K B i lz s).aborted
        · rfl
        · exact absurd hx hb
      rw [if_neg hb] at h
      rw [searchLoop, if_neg hb]
      rcases Nat.eq_or_lt_of_le h1 with heq | hlt
      · subst heq
        rw [searchLoop_bits_below K B n (i + 1) _ _ i (Nat.lt_succ_self i), Nat.sub_self,
          searchBody_bit_at K B i lz s hb']
        rfl
      · rw [ih (i + 1) _ _ h j hlt (by omega)]
        have e : j - i = (j - (i + 1)) + 1 := by omega
        rw [e]
        conv_rhs => rw [searchLoop, if_neg hb]

/-- The search call when the triplet at bit position `p` is the first to report
both the bit and the complement bit set. -/
theorem wireSearch_abort (K : Consts) (B : Bridge σ) (s : Sys σ) (buf : Nat → Nat) (p : Nat)
    (hflag : s.searchLastDeviceFlag = 0)
    (hpres : (wireReset K B s).1 ≠ 0)
    (hp : p < 64)
    (hreach : (searchLoop K B p 0 0 (searchStart K B s)).aborted = false)
    (hboth : (searchTriplet K B p (searchLoop K B p 0 0 (searchStart K B s)).sys).1 &&&
        K.DS2482_STATUS_SBR ≠ 0 ∧
      (searchTriplet K B p (searchLoop K B p 0 0 (searchStart K B s)).sys).1 &&&
        K.DS2482_STATUS_TSB ≠ 0) :
    (wireSearch K B s buf).ret = 0 ∧
    (wireSearch K B s buf).sys.searchLastDiscrepancy = s.searchLastDiscrepancy ∧
    (wireSearch K B s buf).sys.searchLastDeviceFlag = s.searchLastDeviceFlag ∧
    (wireSearch K B s buf).address = buf ∧
    (∀ j, p ≤ j → addrBit (wireSearch K B s buf).sys.searchAddress j =
      addrBit s.searchAddress j) ∧
    (∀ j, j < p → addrBit (wireSearch K B s buf).sys.searchAddress j =
      decide ((searchTriplet K B j (searchLoop K B j 0 0 (searchStart K B s)).sys).1 &&&
        K.DS2482_STATUS_DIR ≠ 0)) := by
  have hab : (searchBody K B p (searchLoop K B p 0 0 (searchStart K B s)).last_zero
      (searchLoop K B p 0 0 (searchStart K B s)).sys).aborted = true :=
    (searchBody_aborted K B p _ _).mpr hboth
  have e64 : 64 = p + ((63 - p) + 1) := by omega
  have hl : searchLoop K B 64 0 0 (searchStart K B s) =
      searchBody K B p (searchLoop K B p 0 0 (searchStart K B s)).last_zero
        (searchLoop K B p 0 0 (searchStart K B s)).sys := by
    rw [e64, searchLoop_split K B p _ 0 0 _ hreach, Nat.zero_add, searchLoop, if_pos hab]
  have hctl := (keeps_searchStart K B s).ctl.andThenCtl
    (keepsCtl_searchLoop K B 64 0 0 (searchStart K B s))
  have hw : wireSearch K B s buf =
      { ret := 0, sys := (searchLoop K B 64 0 0 (searchStart K B s)).sys, address := buf } := by
    unfold wireSearch
    rw [if_neg (not_not.mpr hflag), if_neg hpres]
    dsimp only
    rw [hl, if_pos hab]
  have hfin : (searchLoop K B 64 0 0 (searchStart K B s)).sys.searchAddress =
      (searchLoop K B p 0 0 (searchStart K B s)).sys.searchAddress := by
    rw [hl]
    have hsa := (keeps_searchTriplet K B p
      (searchLoop K B p 0 0 (searchStart K B s)).sys).searchAddress
    unfold searchBody
    dsimp only
    rw [if_pos hboth]
    exact hsa
  rw [hw]
  refine ⟨rfl, hctl.disc, hctl.flag, rfl, ?_, ?_⟩
  · intro j hj
    show addrBit (searchLoop K B 64 0 0 (searchStart K B s)).sys.searchAddress j = _
    rw [hfin, searchLoop_bits K B p 0 0 _ j (by omega), (keeps_searchStart K B s).searchAddress]
  · intro j hj
    show addrBit (searchLoop K B 64 0 0 (searchStart K B s)).sys.searchAddress j = _
    rw [hfin, searchLoop_dirs K B p 0 0 _ hreach j (Nat.zero_le j) (by omega), Nat.sub_zero]

theorem waitOnBusy_mError_of_clear (K : Consts) (B : Bridge σ) (s : Sys σ)
    (h : (waitOnBusy K B s).1 &&& K.DS2482_STATUS_BUSY = 0) :
    (waitOnBusy K B s).2.mError = s.mError := by
  have h1 : (waitLoop K B 1000 0 s).1 &&& K.DS2482_STATUS_BUSY = 0 := h
  unfold waitOnBusy
  dsimp only
  rw [if_neg (not_not.mpr h1)]
  exact waitLoop_mError K B 1000 0 s

theorem writeConfig_mError (K : Consts) (B : Bridge σ) (s : Sys σ) (cfg : Nat)
    (hidle : (waitOnBusy K B s).1 &&& K.DS2482_STATUS_BUSY = 0) :
    (writeConfig K B s cfg).mError =
      (if (readByte B (writeConfigSend K B s cfg)).1 ≠ cfg then 1 else s.mError) := by
  have h1 : (readByte B (writeConfigSend K B s cfg)).2.mError = s.mError := by
    show (writeConfigSend K B s cfg).mError = s.mError
    unfold writeConfigSend
    exact waitOnBusy_mError_of_clear K B s hidle
  unfold writeConfig
  dsimp only
  split
  · rfl
  · exact h1

theorem writeConfigSend_sim (K : Consts) (hK : K.WF) (t : Sys Sim) (cfg : Nat)
    (hb : t.dev.busy < 1000) :
    (writeConfigSend K (simBridge K) t cfg).dev =
      simWriteConfig K (simIdle K t.dev) (configByte cfg % 256) := by
  obtain ⟨_, w2, _⟩ := waitOnBusy_sim K hK t hb
  unfold writeConfigSend
  dsimp only
  rw [send2_dev, w2]
  show (simTransmit K _ _ _).2 = _
  rw [simTransmit_writeConfig K hK]

theorem simWriteConfig_valid (K : Consts) (d : Sim) (cfg : Nat) (hc : cfg ≤ 15) :
    (simWriteConfig K d (configByte cfg % 256)).config = cfg ∧
    (simWriteConfig K d (configByte cfg % 256)).pointer = K.DS2482_POINTER_CONFIG := by
  rw [configByte_nibbles cfg hc]
  have h1 : (cfg + 16 * (15 - cfg)) / 16 = 15 - (cfg + 16 * (15 - cfg)) % 16 := by omega
  have h2 : (cfg + 16 * (15 - cfg)) % 16 = cfg := by omega
  unfold simWriteConfig
  rw [if_pos h1, h2]
  exact ⟨rfl, rfl⟩

theorem simWriteConfig_pointer (K : Consts) (d : Sim) (b : Nat) :
    (simWriteConfig K d b).pointer = K.DS2482_POINTER_CONFIG := by
  unfold simWriteConfig
  split <;> rfl

theorem readByte_sim_config (K : Consts) (hK : K.WF) (t : Sys Sim)
    (hp : t.dev.pointer = K.DS2482_POINTER_CONFIG) :
    (readByte (simBridge K) t).1 = t.dev.config % 256 ∧
    (readByte (simBridge K) t).2.dev = t.dev := by
  obtain ⟨_, _, _, _, _, ⟨_, _, pne⟩⟩ := hK
  simp [readByte, simBridge, simReceive, hp, pne]

theorem readConfig_sim (K : Consts) (hK : K.WF) (t : Sys Sim) :
    (readConfig K (simBridge K) t).1 = t.dev.config % 256 := by
  have hK' := hK
  obtain ⟨_, _, _, ⟨c1, _⟩, _, ⟨_, p2, pne⟩⟩ := hK
  have hd : (setReadPointer K (simBridge K) t K.DS2482_POINTER_CONFIG).dev =
      { t.dev with pointer := K.DS2482_POINTER_CONFIG } := by
    simp [setReadPointer, end_, writeByte, begin, simBridge, simTransmit,
      Nat.mod_eq_of_lt c1, Nat.mod_eq_of_lt p2]
  unfold readConfig
  have := readByte_sim_config K hK' (setReadPointer K (simBridge K) t K.DS2482_POINTER_CONFIG)
    (by rw [hd])
  rw [this.1, hd]

/-- On the simulated bridge a config write whose read-back equals the requested
value leaves the error indicator alone and is returned by `readConfig`. -/
theorem writeConfig_sim_success (K : Consts) (hK : K.WF) (t : Sys Sim) (cfg : Nat)
    (hb : t.dev.busy < 1000)
    (hback : (readByte (simBridge K) (writeConfigSend K (simBridge K) t cfg)).1 = cfg) :
    (readConfig K (simBridge K) (writeConfig K (simBridge K) t cfg)).1 = cfg ∧
    (writeConfig K (simBridge K) t cfg).mError = t.mError := by
  have hsend := writeConfigSend_sim K hK t cfg hb
  have hptr : (writeConfigSend K (simBridge K) t cfg).dev.pointer =
      K.DS2482_POINTER_CONFIG := by
    rw [hsend]; exact simWriteConfig_pointer K _ _
  obtain ⟨b1, b2⟩ := readByte_sim_config K hK (writeConfigSend K (simBridge K) t cfg) hptr
  have hw : writeConfig K (simBridge K) t cfg =
      (readByte (simBridge K) (writeConfigSend K (simBridge K) t cfg)).2 := by
    unfold writeConfig
    dsimp only
    rw [if_neg (not_not.mpr hback)]
  obtain ⟨_, _, w3⟩ := waitOnBusy_sim K hK t hb
  constructor
  · rw [readConfig_sim K hK, hw, b2, ← b1]
    exact hback
  · rw [hw]
    show (writeConfigSend K (simBridge K) t cfg).mError = t.mError
    unfold writeConfigSend
    exact w3

/-- On the simulated bridge the read-back of a config write equals the
requested value whenever that value fits the 4-bit config register. -/
theorem writeConfig_sim_readback (K : Consts) (hK : K.WF) (t : Sys Sim) (cfg : Nat)
    (hb : t.dev.busy < 1000) (hc : cfg ≤ 15) :
    (readByte (simBridge K) (writeConfigSend K (simBridge K) t cfg)).1 = cfg := by
  have hsend := writeConfigSend_sim K hK t cfg hb
  obtain ⟨v1, v2⟩ := simWriteConfig_valid K (simIdle K t.dev) cfg hc
  rw [← hsend] at v1 v2
  obtain ⟨b1, _⟩ := readByte_sim_config K hK (writeConfigSend K (simBridge K) t cfg) v2
  rw [b1, v1]
  exact Nat.mod_eq_of_lt (by omega)

/-- C1: on the simulated bus with the two devices `28 8B 3A 6D 04 00 00 A6` and
`01 12 34 56 00 00 00 42`, whose addresses differ in bit 0, only the first
`search()` call after `reset_search()` returns 1; it delivers the second
device, and the first device is never reported. -/
theorem search_misses_device :
    [0xA60000046D3A8B28, 0x4200000056341201].Nodup ∧
    (searchCalls datasheet (simBridge datasheet) 3
      (reset_search (attach (simInit datasheet [0xA60000046D3A8B28, 0x4200000056341201] 0)))
      (fun _ => 0)).map (fun r => (r.ret, addrValue r.address)) =
      [(1, 0x4200000056341201), (0, 0x4200000056341201), (0, 0x4200000056341201)] := by
  constructor
  · decide
  · decide!

/-- C2: `crc8` over a buffer holding the bytes `bytes`, called with their
number as length, equals the reference bit-serial CRC with polynomial `0x8C`
(register 0 at the start, bytes in order, bits least significant first); the
CRC of the empty sequence is 0. -/
theorem crc8_eq_reference (bytes : List Nat) :
    crc8 (ptr bytes) bytes.length = refCrc8 bytes ∧ crc8 (ptr []) 0 = 0 := by
  refine ⟨?_, rfl⟩
  rw [crc8_ptr]
  exact foldl_crc_eq_ref bytes 0 (by decide)

/-- C3 as stated fails: with the reset reporting presence, the triplet at bit 0
reporting a unanimous 1 and the triplet at bit 1 reporting both bits set,
`search()` returns 0 but byte 0 of the working address has changed from 0 to 1. -/
theorem search_abort_changes_address :
    (reset_search (attach [0, 2, 0, 0, 0, 0xA0, 0, 0x60])).searchLastDeviceFlag = 0 ∧
    (reset datasheet scripted (reset_search (attach [0, 2, 0, 0, 0, 0xA0, 0, 0x60]))).1 ≠ 0 ∧
    (searchTriplet datasheet scripted 1 (searchLoop datasheet scripted 1 0 0
      (searchStart datasheet scripted
        (reset_search (attach [0, 2, 0, 0, 0, 0xA0, 0, 0x60])))).sys).1 = 0x60 ∧
    (search datasheet scripted (reset_search (attach [0, 2, 0, 0, 0, 0xA0, 0, 0x60]))
      (fun _ => 0)).ret = 0 ∧
    (reset_search (attach [0, 2, 0, 0, 0, 0xA0, 0, 0x60])).searchAddress 0 = 0 ∧
    (search datasheet scripted (reset_search (attach [0, 2, 0, 0, 0, 0xA0, 0, 0x60]))
      (fun _ => 0)).sys.searchAddress 0 = 1 := by
  decide!

/-- C3, amended: if the last-device flag is clear, the reset reports a presence
pulse and the triplet at bit position `p` is the first whose status has both
the bit (SBR) and the complement bit (TSB) set, then `search()` returns 0, does
not write the caller's buffer, leaves `searchLastDiscrepancy` and
`searchLastDeviceFlag` as they were, leaves every bit of the working address at
positions `p` and above as it was, and leaves in every bit below `p` the
direction (DIR) that the triplet of that position reported: the working address
is not restored. -/
theorem search_abort_keeps_markers (K : Consts) (B : Bridge σ) (s : Sys σ) (buf : Nat → Nat)
    (p : Nat)
    (hflag : s.searchLastDeviceFlag = 0)
    (hpres : (reset K B s).1 ≠ 0)
    (hp : p < 64)
    (hreach : (searchLoop K B p 0 0 (searchStart K B s)).aborted = false)
    (hboth : (searchTriplet K B p (searchLoop K B p 0 0 (searchStart K B s)).sys).1 &&&
        K.DS2482_STATUS_SBR ≠ 0 ∧
      (searchTriplet K B p (searchLoop K B p 0 0 (searchStart K B s)).sys).1 &&&
        K.DS2482_STATUS_TSB ≠ 0) :
    (search K B s buf).ret = 0 ∧
    (search K B s buf).sys.searchLastDiscrepancy = s.searchLastDiscrepancy ∧
    (search K B s buf).sys.searchLastDeviceFlag = s.searchLastDeviceFlag ∧
    (search K B s buf).address = buf ∧
    (∀ j, p ≤ j → addrBit (search K B s buf).sys.searchAddress j = addrBit s.searchAddress j) ∧
    (∀ j, j < p → addrBit (search K B s buf).sys.searchAddress j =
      decide ((searchTriplet K B j (searchLoop K B j 0 0 (searchStart K B s)).sys).1 &&&
        K.DS2482_STATUS_DIR ≠ 0)) :=
  wireSearch_abort K B s buf p hflag hpres hp hreach hboth

theorem search_abort_keeps_markers_witness :
    (search datasheet scripted (reset_search (attach [0, 2, 0, 0, 0, 0xA0, 0, 0x60]))
      (fun _ => 0)).ret = 0 ∧
    (search datasheet scripted (reset_search (attach [0, 2, 0, 0, 0, 0xA0, 0, 0x60]))
      (fun _ => 0)).sys.searchLastDiscrepancy =
      (reset_search (attach [0, 2, 0, 0, 0, 0xA0, 0, 0x60])).searchLastDiscrepancy ∧
    (search datasheet scripted (reset_search (attach [0, 2, 0, 0, 0, 0xA0, 0, 0x60]))
      (fun _ => 0)).sys.searchLastDeviceFlag =
      (reset_search (attach [0, 2, 0, 0, 0, 0xA0, 0, 0x60])).searchLastDeviceFlag ∧
    (search datasheet scripted (reset_search (attach [0, 2, 0, 0, 0, 0xA0, 0, 0x60]))
      (fun _ => 0)).address = (fun _ => 0) ∧
    (∀ j, 1 ≤ j →
      addrBit (search datasheet scripted (reset_search (attach [0, 2, 0, 0, 0, 0xA0, 0, 0x60]))
        (fun _ => 0)).sys.searchAddress j =
      addrBit (reset_search (attach [0, 2, 0, 0, 0, 0xA0, 0, 0x60])).searchAddress j) ∧
    (∀ j, j < 1 →
      addrBit (search datasheet scripted (reset_search (attach [0, 2, 0, 0, 0, 0xA0, 0, 0x60]))
        (fun _ => 0)).sys.searchAddress j =
      decide ((searchTriplet datasheet scripted j (searchLoop datasheet scripted j 0 0
        (searchStart datasheet scripted
          (reset_search (attach [0, 2, 0, 0, 0, 0xA0, 0, 0x60])))).sys).1 &&&
        datasheet.DS2482_STATUS_DIR ≠ 0)) :=
  search_abort_keeps_markers datasheet scripted
    (reset_search (attach [0, 2, 0, 0, 0, 0xA0, 0, 0x60])) (fun _ => 0) 1
    (by decide!) (by decide!) (by decide) (by decide!) (by decide!)

/-- C4 as stated fails: with the devices 2 and 4 on the bus the successful
calls deliver 4 and then 2, which is not increasing for the 64-bit values with
bit 0 as least significant bit. -/
theorem search_order_not_numeric :
    (foundAddresses (searchCalls datasheet (simBridge datasheet) 3
      (reset_search (attach (simInit datasheet [2, 4] 0))) (fun _ => 0))).map addrValue = [4, 2] ∧
    ¬ List.Chain' (fun a b => addrValue a < addrValue b)
      (foundAddresses (searchCalls datasheet (simBridge datasheet) 3
        (reset_search (attach (simInit datasheet [2, 4] 0))) (fun _ => 0))) := by
  have hmap : (foundAddresses (searchCalls datasheet (simBridge datasheet) 3
      (reset_search (attach (simInit datasheet [2, 4] 0))) (fun _ => 0))).map addrValue =
      [4, 2] := by decide!
  refine ⟨hmap, fun h => ?_⟩
  have h2 := (List.chain'_map addrValue).mpr h
  rw [hmap] at h2
  simp at h2

/-- C4, amended: on the simulated bus behind an ideal bridge, whatever the
devices, in the sequence of addresses delivered by the successful `search()`
calls that follow one `reset_search()` each address is strictly greater than
the one before it when both are read as 64-bit unsigned values in search order,
bit 0 (the least significant bit of byte 0) being the most significant bit
and bit 63 the least significant. -/
theorem search_order (K : Consts) (hK : K.WF) (t : Sys Sim)
    (hb : t.dev.busy < 1000) (hl : t.dev.latency < 1000) (n : Nat) (buf : Nat → Nat) :
    List.Chain' (fun a b => searchOrderValue a < searchOrderValue b)
      (foundAddresses (searchCalls K (simBridge K) n (reset_search t) buf)) :=
  (searchCalls_sim K hK t.dev.roms n (reset_search t) buf (ready_reset_search t hb hl)).1

theorem search_order_witness :
    List.Chain' (fun a b => searchOrderValue a < searchOrderValue b)
      (foundAddresses (searchCalls datasheet (simBridge datasheet) 3
        (reset_search (attach (simInit datasheet [2, 4] 5))) (fun _ => 0))) :=
  search_order datasheet (by decide) (attach (simInit datasheet [2, 4] 5))
    (by decide) (by decide) 3 (fun _ => 0)

theorem statusSeq_const (K : Consts) (b a j : Nat) : ∀ d : Unit,
    statusSeq K (constBridge b) a j d = b % 256 := by
  induction j with
  | zero => intro d; rfl
  | succ j ih => intro d; rw [statusSeq_succ]; exact ih _

/-- C5: take the status bytes the bridge returns to consecutive status reads
(each a Set Read Pointer transaction for the Status register followed by a
one-byte read), and let read number `k + 1` be the first whose busy bit is clear
(any `k` of 1000 or more when the first 1000 are all busy).  Then `waitOnBusy`
performs exactly `min (k + 1) 1000` such status reads and nothing else but the
20 microsecond pause after each busy one, returns the last status byte it read,
and sets the error indicator exactly when all 1000 reads were busy, leaving it
as it was otherwise. -/
theorem waitOnBusy_polls (K : Consts) (B : Bridge σ) (s : Sys σ) (k : Nat)
    (hbusy : ∀ j, j < k → j < 1000 →
      statusSeq K B s.mAddress j s.dev &&& K.DS2482_STATUS_BUSY ≠ 0)
    (hclear : k < 1000 → statusSeq K B s.mAddress k s.dev &&& K.DS2482_STATUS_BUSY = 0) :
    (waitOnBusy K B s).2.log = s.log ++ pollLog K B s.mAddress (min (k + 1) 1000) s.dev ∧
    rxCount (waitOnBusy K B s).2.log = rxCount s.log + min (k + 1) 1000 ∧
    (waitOnBusy K B s).2.dev = statusDev K B s.mAddress (min (k + 1) 1000) s.dev ∧
    (waitOnBusy K B s).1 = statusSeq K B s.mAddress (min k 999) s.dev ∧
    getError (waitOnBusy K B s).2 = (if 1000 ≤ k then 1 else getError s) := by
  obtain ⟨e1, e2, e3, e4⟩ := waitOnBusy_spec K B s k hbusy hclear
  refine ⟨e1, ?_, e2, e3, e4⟩
  rw [e1, rxCount_append, rxCount_pollLog]

theorem waitOnBusy_polls_witness :
    (waitOnBusy datasheet (constBridge 1) (attach ())).2.log =
      (attach ()).log ++ pollLog datasheet (constBridge 1) (attach ()).mAddress
        (min (1000 + 1) 1000) (attach ()).dev ∧
    rxCount (waitOnBusy datasheet (constBridge 1) (attach ())).2.log =
      rxCount (attach ()).log + min (1000 + 1) 1000 ∧
    (waitOnBusy datasheet (constBridge 1) (attach ())).2.dev =
      statusDev datasheet (constBridge 1) (attach ()).mAddress (min (1000 + 1) 1000)
        (attach ()).dev ∧
    (waitOnBusy datasheet (constBridge 1) (attach ())).1 =
      statusSeq datasheet (constBridge 1) (attach ()).mAddress (min 1000 999) (attach ()).dev ∧
    getError (waitOnBusy datasheet (constBridge 1) (attach ())).2 =
      (if 1000 ≤ 1000 then 1 else getError (attach ())) :=
  waitOnBusy_polls datasheet (constBridge 1) (attach ()) 1000
    (by intro j _ _; rw [statusSeq_const]; decide)
    (by intro h; exact absurd h (by decide))

/-- C6: on every bridge whose busy wait does not time out, `writeConfig(cfg)`
sets the error indicator exactly when the byte read back after the write differs
from `cfg`, and leaves it as it was when the read-back equals `cfg`; and on the
simulated bridge, which stores the written config, a write whose read-back
equals `cfg` leaves the error indicator as it was and a following
`readConfig()` returns `cfg`.  Every `cfg` of at most 15 is read back
unchanged by the simulated bridge, so the round trip then holds. -/
theorem writeConfig_verify (K : Consts) (B : Bridge σ) (s : Sys σ) (cfg : Nat)
    (hidle : (waitOnBusy K B s).1 &&& K.DS2482_STATUS_BUSY = 0)
    (hK : K.WF) (t : Sys Sim) (hb : t.dev.busy < 1000) :
    getError (writeConfig K B s cfg) =
      (if (readByte B (writeConfigSend K B s cfg)).1 ≠ cfg then 1 else getError s) ∧
    ((readByte (simBridge K) (writeConfigSend K (simBridge K) t cfg)).1 = cfg →
      (readConfig K (simBridge K) (writeConfig K (simBridge K) t cfg)).1 = cfg ∧
      getError (writeConfig K (simBridge K) t cfg) = getError t) ∧
    (cfg ≤ 15 → (readByte (simBridge K) (writeConfigSend K (simBridge K) t cfg)).1 = cfg) :=
  ⟨writeConfig_mError K B s cfg hidle,
   fun hback => writeConfig_sim_success K hK t cfg hb hback,
   fun hc => writeConfig_sim_readback K hK t cfg hb hc⟩

theorem writeConfig_verify_witness :
    (getError (writeConfig datasheet (constBridge 0) (attach ()) 5) =
      (if (readByte (constBridge 0) (writeConfigSend datasheet (constBridge 0) (attach ()) 5)).1
        ≠ 5 then 1 else getError (attach ()))) ∧
    ((readByte (simBridge datasheet)
      (writeConfigSend datasheet (simBridge datasheet) (attach (simInit datasheet [] 3)) 5)).1 = 5 ∧
     (readConfig datasheet (simBridge datasheet)
      (writeConfig datasheet (simBridge datasheet) (attach (simInit datasheet [] 3)) 5)).1 = 5 ∧
     getError (writeConfig datasheet (simBridge datasheet) (attach (simInit datasheet [] 3)) 5) =
      getError (attach (simInit datasheet [] 3))) :=
  ⟨(writeConfig_verify datasheet (constBridge 0) (attach ()) 5 (by decide!) (by decide)
      (attach (simInit datasheet [] 3)) (by decide)).1,
   (writeConfig_verify datasheet (constBridge 0) (attach ()) 5 (by decide!) (by decide)
      (attach (simInit datasheet [] 3)) (by decide)).2.2 (by decide),
   (writeConfig_verify datasheet (constBridge 0) (attach ()) 5 (by decide!) (by decide)
      (attach (simInit datasheet [] 3)) (by decide)).2.1
     ((writeConfig_verify datasheet (constBridge 0) (attach ()) 5 (by decide!) (by decide)
      (attach (simInit datasheet [] 3)) (by decide)).2.2 (by decide))⟩

/-- C7: for a requested config value `c` of at most 15, the write transaction of
`writeConfig` carries the write-config command followed by the single data byte
`c + 16 * (15 - c)`, the 8-bit truncation of `c | (~c << 4)`, whose low nibble
is `c` and whose high nibble is the 4-bit complement `15 - c`; the only traffic
after the busy wait is this transaction and the read-back. -/
theorem writeConfig_wire_byte (K : Consts) (B : Bridge σ) (s : Sys σ) (c : Nat) (hc : c ≤ 15) :
    (writeConfig K B s c).log = (waitOnBusy K B s).2.log ++
      [Event.tx s.mAddress [K.DS2482_COMMAND_WRITECONFIG % 256, c + 16 * (15 - c)],
       Event.rx s.mAddress (readByte B (writeConfigSend K B s c)).1] ∧
    configByte c % 256 = c + 16 * (15 - c) ∧
    (c + 16 * (15 - c)) % 16 = c ∧ (c + 16 * (15 - c)) / 16 = 15 - c := by
  refine ⟨?_, configByte_nibbles c hc, by omega, by omega⟩
  rw [writeConfig_log, writeConfigSend_log, configByte_nibbles c hc]
  simp

theorem writeConfig_wire_byte_witness :
    (5 : Nat) ≤ 15 ∧
    ((writeConfig datasheet (constBridge 5) (attach ()) 5).log =
      (waitOnBusy datasheet (constBridge 5) (attach ())).2.log ++
      [Event.tx (attach ()).mAddress [datasheet.DS2482_COMMAND_WRITECONFIG % 256, 5 + 16 * (15 - 5)],
       Event.rx (attach ()).mAddress
         (readByte (constBridge 5) (writeConfigSend datasheet (constBridge 5) (attach ()) 5)).1] ∧
    configByte 5 % 256 = 5 + 16 * (15 - 5) ∧
    (5 + 16 * (15 - 5)) % 16 = 5 ∧ (5 + 16 * (15 - 5)) / 16 = 15 - 5) :=
  ⟨by decide, writeConfig_wire_byte datasheet (constBridge 5) (attach ()) 5 (by decide)⟩

/-- C9: the error indicator is sticky: once `getError()` is non-zero it stays
non-zero across every operation of the controller, whatever the bridge does. -/
theorem error_sticky (K : Consts) (B : Bridge σ) (s : Sys σ) (h : getError s ≠ 0)
    (config v power : Nat) (rom address : Nat → Nat) :
    getError (waitOnBusy K B s).2 ≠ 0 ∧
    getError (writeConfig K B s config) ≠ 0 ∧
    getError (reset K B s).2 ≠ 0 ∧
    getError (select K B s rom) ≠ 0 ∧
    getError (skip K B s) ≠ 0 ∧
    getError (write K B s v power) ≠ 0 ∧
    getError (read K B s).2 ≠ 0 ∧
    getError (write_bit K B s v) ≠ 0 ∧
    getError (read_bit K B s).2 ≠ 0 ∧
    getError (reset_search s) ≠ 0 ∧
    getError (search K B s address).sys ≠ 0 :=
  ⟨(keeps_waitOnBusy K B s).stickyErr h,
   (keeps_writeConfig K B s config).stickyErr h,
   (keeps_wireReset K B s).stickyErr h,
   (keeps_wireSelect K B s rom).stickyErr h,
   (keeps_wireWriteByte K B s _).stickyErr h,
   (keeps_wireWriteByte K B s v).stickyErr h,
   (keeps_wireReadByte K B s).stickyErr h,
   (keeps_wireWriteBit K B s v).stickyErr h,
   (keeps_wireReadBit K B s).stickyErr h,
   h,
   sticky_of_err (wireSearch_err K B s address) h⟩

theorem error_sticky_witness :
    getError ({ attach () with mError := 1 } : Sys Unit) ≠ 0 ∧
    getError (waitOnBusy datasheet (constBridge 0x23) { attach () with mError := 1 }).2 ≠ 0 ∧
    getError (search datasheet (constBridge 0x23) { attach () with mError := 1 }
      (fun _ => 0)).sys ≠ 0 :=
  ⟨by decide,
   (error_sticky datasheet (constBridge 0x23) { attach () with mError := 1 } (by decide)
     0 0 0 (fun _ => 0) (fun _ => 0)).1,
   (error_sticky datasheet (constBridge 0x23) { attach () with mError := 1 } (by decide)
     0 0 0 (fun _ => 0) (fun _ => 0)).2.2.2.2.2.2.2.2.2.2⟩

/-- C10: for a byte sequence `m` and a byte `b`, `crc8` of `m` followed by `b`
is 0 exactly when `b` is `crc8` of `m`; in particular `crc8` over the 8 bytes of
a device address `a` is 0 exactly when byte 7 is `crc8` of bytes 0 to 6. -/
theorem crc8_residue (m : List Nat) (b : Nat) (hb : b < 256) (a : Nat → Nat) (ha : a 7 < 256) :
    (crc8 (ptr (m ++ [b])) (m.length + 1) = 0 ↔ b = crc8 (ptr m) m.length) ∧
    (crc8 a 8 = 0 ↔ a 7 = crc8 a 7) := by
  have hlen : (m ++ [b]).length = m.length + 1 := by simp
  constructor
  · rw [← hlen, crc8_ptr, crc8_ptr, List.foldl_append, List.foldl_cons, List.foldl_nil,
      Nat.mod_eq_of_lt hb]
    exact crcBits_residue _ b (foldl_crc_lt m 0 (by decide)) hb
  · unfold crc8
    rw [crc8Loop_snoc a 7 0 0, Nat.zero_add, Nat.mod_eq_of_lt ha]
    exact crcBits_residue _ (a 7) (crc8Loop_lt a 7 0 0 (by decide)) ha

theorem crc8_residue_witness :
    (0xA6 : Nat) < 256 ∧ ptr [0x28, 0x8B, 0x3A, 0x6D, 0x04, 0x00, 0x00, 0xA6] 7 < 256 ∧
    ((crc8 (ptr ([0x28, 0x8B, 0x3A, 0x6D, 0x04, 0x00, 0x00] ++ [0xA6]))
        ([0x28, 0x8B, 0x3A, 0x6D, 0x04, 0x00, 0x00].length + 1) = 0 ↔
      0xA6 = crc8 (ptr [0x28, 0x8B, 0x3A, 0x6D, 0x04, 0x00, 0x00])
        [0x28, 0x8B, 0x3A, 0x6D, 0x04, 0x00, 0x00].length) ∧
     (crc8 (ptr [0x28, 0x8B, 0x3A, 0x6D, 0x04, 0x00, 0x00, 0xA6]) 8 = 0 ↔
      ptr [0x28, 0x8B, 0x3A, 0x6D, 0x04, 0x00, 0x00, 0xA6] 7 =
        crc8 (ptr [0x28, 0x8B, 0x3A, 0x6D, 0x04, 0x00, 0x00, 0xA6]) 7)) :=
  ⟨by decide, by decide,
   crc8_residue [0x28, 0x8B, 0x3A, 0x6D, 0x04, 0x00, 0x00] 0xA6 (by decide)
     (ptr [0x28, 0x8B, 0x3A, 0x6D, 0x04, 0x00, 0x00, 0xA6]) (by decide)⟩

end DS2482
